import Mathlib

/-! Verification of the inspection-server backend (src/index.cjs, first
    iteration, lines 1-1499): a shallow embedding of the report
    upsert-by-natural-key routes and of the token-based training-session
    quiz submission handler, with the Postgres `reports` table modeled as
    a list of rows and each SQL statement as a function on that list.
    JavaScript strings are Lean strings; an absent (undefined/null) value
    is `Option.none`; a non-string value read through `String(...)` is
    carried by its string image; a `Number(...)` result is `Option ℚ`
    with `none` for a non-finite result. -/

namespace InspectionServer

/-! JS helper functions (index.cjs lines 56-91). -/

/-- Model of `String.prototype.trim`: drop whitespace at both ends. -/
def jsTrim (s : String) : String :=
  ⟨List.rdropWhile Char.isWhitespace (s.data.dropWhile Char.isWhitespace)⟩

/-- Model of `String.prototype.toLowerCase` (ASCII, enough for the keys used). -/
def jsLower (s : String) : String := ⟨s.data.map Char.toLower⟩

/-- Model of `String.prototype.toUpperCase` (ASCII). -/
def jsUpper (s : String) : String := ⟨s.data.map Char.toUpper⟩

/-- JS `a || b` on a string value `a` (falsy exactly when empty). -/
def jsOr (a b : String) : String := if a = "" then b else a

/-- JS `a || b` where `a` may be absent (`undefined`/`null` are falsy). -/
def jsOrO (a : Option String) (b : String) : String :=
  match a with
  | some s => if s = "" then b else s
  | none => b

/-- `normText` (line 77): `String(v ?? "").trim()`. -/
def normText (v : Option String) : String := jsTrim (v.getD "")

/-- `normKey` (line 89): `String(s ?? "").trim().toLowerCase()`. -/
def normKey (s : String) : String := jsLower (jsTrim s)

/-- `clampInt` (line 71). The caller passes the result of
    `Number.parseInt(String(v ?? ""), 10)`: `none` models a NaN parse
    (absent or unparsable input), `some n` a parsed integer. -/
def clampInt (v : Option ℤ) (d lo hi : ℤ) : ℤ :=
  max lo (min hi (v.getD d))

/-! Reports data model (schema of `ensureSchema`, lines 94-130). -/

/-- A report JSON payload: the two fields the routes inspect
    (`reportDate`, `invoiceNo`) made explicit, the remainder of the
    object kept opaque. `none` models an absent field. -/
structure RPayload where
  reportDate : Option String
  invoiceNo : Option String
  rest : String
deriving DecidableEq, Repr

/-- A row of the `reports` table; timestamps are logical ticks. -/
structure Record where
  id : ℕ
  reporter : String
  type : String
  payload : RPayload
  createdAt : ℕ
  updatedAt : ℕ
deriving DecidableEq, Repr

/-- The WHERE clause `type=$ AND payload->>'reportDate'=$` of the upsert
    statements: an absent field yields SQL NULL, which never equals `$`. -/
def rowMatch (t d : String) (r : Record) : Bool :=
  r.type == t && r.payload.reportDate == some d

/-- The invariant enforced by the unique index
    `ux_reports_type_reportdate` (line 123): at most one row per
    (type, payload reportDate) pair. -/
def Uniq (s : List Record) : Prop :=
  ∀ t d, s.countP (rowMatch t d) ≤ 1

/-- A Postgres error as the route handlers see it (`e.code`, `e.message`). -/
structure DbErr where
  code : String
  message : String
deriving DecidableEq, Repr

/-- The SET clause of the upsert UPDATE applied to one row: reporter via
    COALESCE, payload replaced, updated_at bumped. -/
def updRow (reporterArg : Option String) (pl : RPayload) (now : ℕ) (r : Record) : Record :=
  { r with reporter := reporterArg.getD r.reporter, payload := pl, updatedAt := now }

/-- The conditional UPDATE of the upsert routes (lines 302, 445): apply
    the SET clause to every row matching (type, reportDate); returns the
    new store and the RETURNING rows. -/
def sqlUpdate (reporterArg : Option String) (pl : RPayload) (t d : String)
    (now : ℕ) (s : List Record) : List Record × List Record :=
  (s.map fun r => if rowMatch t d r then updRow reporterArg pl now r else r,
   (s.filter (rowMatch t d)).map (updRow reporterArg pl now))

/-- The fallback INSERT (lines 316, 459) under the unique index: fails
    with Postgres error code 23505 when a row with the same
    (type, payload reportDate) already exists; NULL natural keys never
    conflict. -/
def sqlInsert (reporter t : String) (pl : RPayload) (nextId now : ℕ)
    (s : List Record) : Except DbErr (List Record × Record) :=
  if pl.reportDate.isSome && s.any (fun r => r.type == t && r.payload.reportDate == pl.reportDate) then
    .error ⟨ "23505", "duplicate key value violates unique constraint ux_reports_type_reportdate"⟩
  else
    let r : Record := ⟨nextId, reporter, t, pl, now, now⟩
    .ok (s ++ [r], r)

/-- The JSON responses an upsert route can produce. -/
inductive UpsertResp where
  | badReq (error : String)
  | okUpdate (report : Record)
  | created (report : Record)
  | conflict
  | internal (error : String)
deriving DecidableEq, Repr

/-- HTTP status of each upsert response (conflict carries the 409
    DUPLICATE_REPORT_FOR_DATE body of line 326). -/
def UpsertResp.status : UpsertResp → ℕ
  | .badReq _ => 400
  | .okUpdate _ => 200
  | .created _ => 201
  | .conflict => 409
  | .internal _ => 500

/-- The `method` field of a successful upsert response (lines 313, 323). -/
def UpsertResp.method : UpsertResp → Option String
  | .okUpdate _ => some "update"
  | .created _ => some "insert"
  | _ => none

/-- Which upsert route is running, for the catch-block mapping. -/
inductive RouteKind where
  | base
  | typed
deriving DecidableEq, Repr

/-- Error mapping of the route-level catch blocks: PUT /api/reports
    (line 324) maps Postgres code 23505 to the 409 conflict body and any
    other error to a 500 carrying the raw message; PUT /api/reports/:type
    (line 467) returns 500 with the raw `String(e.message)` for every
    error, with no 23505 case. -/
def catchMap : RouteKind → DbErr → UpsertResp
  | .base, e => if e.code = "23505" then .conflict else .internal e.message
  | .typed, e => .internal e.message

/-- The data an upsert route carries into its SQL statements after
    validation. -/
structure UpsertJob where
  route : RouteKind
  reporterArg : Option String
  reporterIns : String
  type : String
  date : String
  payload : RPayload
deriving DecidableEq, Repr

/-- An in-flight upsert request between its SQL statements. -/
inductive UThread where
  | toUpdate (j : UpsertJob)
  | toInsert (j : UpsertJob)
  | done (resp : UpsertResp)
deriving DecidableEq, Repr

/-- Well-formedness of an in-flight upsert: the job's payload carries its
    own natural key, as every route's validation guarantees. -/
def UThread.wf : UThread → Prop
  | .toUpdate j => j.payload.reportDate = some j.date
  | .toInsert j => j.payload.reportDate = some j.date
  | .done _ => True

/-- One SQL statement of an in-flight upsert: the conditional UPDATE
    (responding `method update` on a match, line 312), then on zero
    matched rows the fallback INSERT, whose failure is handled by the
    route's catch block. Interleaving two threads' steps models two
    requests racing on the same natural key. -/
def ustep (nextId now : ℕ) (t : UThread) (s : List Record) : UThread × List Record :=
  match t with
  | .toUpdate j =>
      let r2 := sqlUpdate j.reporterArg j.payload j.type j.date now s
      match r2.2 with
      | r :: _ => (.done (.okUpdate r), r2.1)
      | [] => (.toInsert j, s)
  | .toInsert j =>
      match sqlInsert j.reporterIns j.type j.payload nextId now s with
      | .ok (s2, r) => (.done (.created r), s2)
      | .error e => (.done (catchMap j.route e), s)
  | .done r => (.done r, s)

/-- Request model for PUT /api/reports (line 284): the body fields the
    handler reads, plus the query reportDate, which this handler never
    reads. `payload = none` models an absent or non-object payload. -/
structure PutReq where
  reporter : Option String
  type : Option String
  payload : Option RPayload
  queryReportDate : Option String
deriving DecidableEq, Repr

/-- Validation phase of PUT /api/reports (lines 286-300): 400 on empty
    type, non-object payload, or empty payload.reportDate; otherwise the
    job for the SQL phases, with the payload's reportDate normalized. -/
def putReportsStart (b : PutReq) : Except UpsertResp UpsertJob :=
  let reporter := normText (some (jsOrO b.reporter "anonymous"))
  let type := normText b.type
  if type = "" then .error (.badReq "type required") else
  match b.payload with
  | none => .error (.badReq "payload object required")
  | some payload0 =>
    let reportDate := normText (some (jsOrO payload0.reportDate ""))
    if reportDate = "" then .error (.badReq "payload.reportDate required") else
    .ok ⟨.base, if reporter = "" then none else some reporter, reporter, type, reportDate,
         { payload0 with reportDate := some reportDate }⟩

/-- Run an upsert job's SQL statements to completion with no concurrent
    interleaving (update, then insert if needed). -/
def runUpsert (j : UpsertJob) (nextId now : ℕ) (s : List Record) : UpsertResp × List Record :=
  match ustep nextId now (.toUpdate j) s with
  | (.done r, s2) => (r, s2)
  | (t2, s2) =>
    match ustep nextId now t2 s2 with
    | (.done r, s3) => (r, s3)
    | (_, s3) => (.internal "unreachable", s3)

/-- PUT /api/reports (line 284), sequential execution. -/
def putReports (b : PutReq) (nextId now : ℕ) (s : List Record) : UpsertResp × List Record :=
  match putReportsStart b with
  | .error r => (r, s)
  | .ok j => runUpsert j nextId now s

/-- Request model for PUT /api/reports/:type (line 421). When the body
    carries no payload object the handler falls back to the body's own
    fields minus reporter/type/payload (line 427); `residual` models that
    residual object. -/
structure TypedReq where
  typeParam : String
  queryReportDate : Option String
  reporter : Option String
  payload : Option RPayload
  residual : RPayload
deriving DecidableEq, Repr

/-- Validation phase of PUT /api/reports/:type (lines 423-443): the
    natural key comes from payload.reportDate, defaulting to the query
    reportDate (line 434). -/
def putReportsTypedStart (b : TypedReq) : Except UpsertResp UpsertJob :=
  let type := normText (some b.typeParam)
  if type = "" then .error (.badReq "type param required") else
  let payload0 := b.payload.getD b.residual
  let reportDate := normText (some (jsOrO payload0.reportDate (jsOrO b.queryReportDate "")))
  if reportDate = "" then
    .error (.badReq "reportDate required (payload.reportDate or ?reportDate=)")
  else
    let reporter := normText (some (jsOrO b.reporter "anonymous"))
    .ok ⟨.typed, if reporter = "" then none else some reporter, reporter, type, reportDate,
         { payload0 with reportDate := some reportDate }⟩

/-- PUT /api/reports/:type (line 421), sequential execution. -/
def putReportsTyped (b : TypedReq) (nextId now : ℕ) (s : List Record) : UpsertResp × List Record :=
  match putReportsTypedStart b with
  | .error r => (r, s)
  | .ok j => runUpsert j nextId now s

/-- N sequential PUT /api/reports calls, threading the store and fresh
    ids/timestamps. -/
def putReportsSeq (bs : List PutReq) (nextId now : ℕ) (s : List Record) : List Record :=
  match bs with
  | [] => s
  | b :: rest => putReportsSeq rest (nextId + 1) (now + 1) (putReports b nextId now s).2

/-! GET /api/reports (line 189): list with lite projection and clamp. -/

/-- Query model for GET /api/reports. `limit` is the parse result of the
    limit parameter (`none` = absent or unparsable). -/
structure ListQuery where
  type : Option String
  lite : Option String
  limit : Option ℤ
deriving DecidableEq, Repr

/-- The lite projection's columns (lines 201-209): scalar fields plus the
    two payload extracts, without the payload itself. -/
structure LiteRow where
  id : ℕ
  reporter : String
  type : String
  created_at : ℕ
  updated_at : ℕ
  reportDate : Option String
  invoiceNo : Option String
deriving DecidableEq, Repr

/-- The lite SELECT list applied to one row. -/
def liteProj (r : Record) : LiteRow :=
  ⟨r.id, r.reporter, r.type, r.createdAt, r.updatedAt, r.payload.reportDate, r.payload.invoiceNo⟩

/-- ORDER BY created_at DESC as a relation. -/
def createdDesc (a b : Record) : Prop := b.createdAt ≤ a.createdAt

instance : DecidableRel createdDesc := fun a b => Nat.decLe b.createdAt a.createdAt

instance : IsTotal Record createdDesc :=
  ⟨fun a b => Nat.le_total b.createdAt a.createdAt⟩

instance : IsTrans Record createdDesc :=
  ⟨fun _ _ _ h1 h2 => le_trans h2 h1⟩

/-- The rows the SELECT of GET /api/reports returns: ordered by
    created_at DESC, optionally filtered by type, LIMIT clamped into
    [1, 500] with default 200 (line 194). -/
def listBase (qtype : Option String) (qlimit : Option ℤ) (s : List Record) : List Record :=
  let limit := clampInt qlimit 200 1 500
  ((List.insertionSort createdDesc s).filter
      (fun r => match qtype with | some t => r.type == t | none => true)).take limit.toNat

/-- The lite flag check (line 192): `lite` equal to 1/true/yes after
    lowercasing. -/
def isLiteFlag (lite : Option String) : Bool :=
  let l := jsLower (jsOrO lite "")
  l == "1" || l == "true" || l == "yes"

/-- The body of a GET /api/reports response. -/
inductive ListResp where
  | liteRows (rows : List LiteRow)
  | fullRows (rows : List Record)
deriving DecidableEq, Repr

/-- GET /api/reports (line 189). -/
def listReports (q : ListQuery) (s : List Record) : ListResp :=
  if isLiteFlag q.lite then .liteRows ((listBase q.type q.limit s).map liteProj)
  else .fullRows (listBase q.type q.limit s)

/-- Number of rows in a list response. -/
def ListResp.size : ListResp → ℕ
  | .liteRows l => l.length
  | .fullRows l => l.length

/-! Training-session quiz model (index.cjs lines 587-904). -/

/-- Result of a JS `Number(...)` conversion: `some q` when finite,
    `none` when NaN or an infinity (`Number.isFinite` false). -/
abbrev NumVal := Option ℚ

/-- A quiz question as the handler reads it: `correct` is
    `Number(qq?.correct)`; the text and option fields feed the attempt
    snapshot only. -/
structure Question where
  q_ar : Option String
  q_en : Option String
  options_ar : Option (List String)
  options_en : Option (List String)
  correct : NumVal
deriving DecidableEq, Repr

/-- One entry of the attempt snapshot's answers array (line 804). -/
structure SnapAnswer where
  q_ar : String
  q_en : String
  options_ar : List String
  options_en : List String
  correct : ℚ
  chosen : ℤ
deriving DecidableEq, Repr

/-- The attempt snapshot stored on the matched roster participant
    (line 798). -/
structure AttemptSnapshot where
  module : String
  submittedAt : String
  passMark : ℚ
  score : ℕ
  result : String
  answers : List SnapAnswer
deriving DecidableEq, Repr

/-- The participant sub-object of a stored submission (line 817). -/
structure SubParticipant where
  name : String
  designation : String
  employeeId : String
deriving DecidableEq, Repr

/-- A submission-ledger entry (line 814). -/
structure Submission where
  token : String
  participantKey : String
  participant : SubParticipant
  submittedAt : String
  passMark : ℚ
  score : ℕ
  result : String
  answers : List ℤ
deriving DecidableEq, Repr

/-- A roster participant inside payload.participants. String fields use
    the empty string for an absent value, exactly how the handler reads
    them (`pp?.x || ""`); `rest` keeps the fields the update spread
    preserves untouched. -/
structure Participant where
  slNo : String
  name : String
  designation : String
  employeeId : String
  score : Option String
  result : Option String
  lastQuizAt : Option String
  quizAttempt : Option AttemptSnapshot
  rest : String
deriving DecidableEq, Repr

/-- The quiz container object (payload.quiz / quizData / trainingQuiz):
    `questions` is `some` exactly when `Array.isArray` holds, `passMark`
    is absent (`none`) versus a present `Number(...)` value. -/
structure QuizObj where
  module : Option String
  passMark : Option NumVal
  questions : Option (List Question)
deriving DecidableEq, Repr

/-- A training_session report payload: the fields the by-token routes
    read, the rest opaque. A quiz-container field that is present but
    falsy is folded into `none`. -/
structure TrainingPayload where
  quizToken : Option String
  quiz : Option QuizObj
  quizData : Option QuizObj
  trainingQuiz : Option QuizObj
  questions : Option (List Question)
  module : Option String
  moduleName : Option String
  passMark : Option NumVal
  PASS_MARK : Option NumVal
  participants : Option (List Participant)
  quizSubmissions : Option (List (String × Submission))
  quizSubmission : Option Submission
  rest : String
deriving DecidableEq, Repr

/-- The normalized quiz `extractQuiz` produces. -/
structure Quiz where
  module : String
  passMark : ℚ
  questions : List Question
deriving DecidableEq, Repr

/-- The chain `q?.passMark ?? payload?.passMark ?? payload?.PASS_MARK`
    of line 599, without the literal 80 default: `none` when every
    source is absent. -/
def pmChain (p : TrainingPayload) : Option NumVal :=
  let q := (p.quiz.orElse fun _ => p.quizData).orElse fun _ => p.trainingQuiz
  ((q.bind QuizObj.passMark).orElse fun _ => p.passMark).orElse fun _ => p.PASS_MARK

/-- `extractQuiz` (line 592): resolve questions, module, and passMark
    with fallbacks; a passMark that is absent or non-finite becomes 80
    (lines 599, 603). -/
def extractQuiz (p : TrainingPayload) : Quiz :=
  let q := (p.quiz.orElse fun _ => p.quizData).orElse fun _ => p.trainingQuiz
  let questions :=
    match q.bind QuizObj.questions with
    | some qs => qs
    | none => p.questions.getD []
  let module := jsOrO (q.bind QuizObj.module) (jsOrO p.module (jsOrO p.moduleName ""))
  let passMark :=
    match pmChain p with
    | some v => v.getD 80
    | none => (80 : ℚ)
  ⟨module, passMark, questions⟩

/-- The participant object of a submit request body. -/
structure ReqParticipant where
  name : Option String
  designation : Option String
  employeeId : Option String
deriving DecidableEq, Repr

/-- One element of the submitted answers array: an integer
    (`Number.isInteger` true) or any other JS value, carried by a tag. -/
inductive JsAns where
  | int (n : ℤ)
  | other (tag : String)
deriving DecidableEq, Repr

/-- The `Number.isInteger` test on an answer element (line 781). -/
def JsAns.isInt : JsAns → Bool
  | .int _ => true
  | .other _ => false

/-- The integer value of a validated answer element. -/
def JsAns.toInt : JsAns → ℤ
  | .int n => n
  | .other _ => 0

/-- The body of a submit request: `answers = none` models an absent or
    non-array field (`safeArr` yields []). -/
structure SubmitReq where
  token : String
  participantKey : Option String
  participant : Option ReqParticipant
  answers : Option (List JsAns)
deriving DecidableEq, Repr

/-- `makeParticipantKeyFromBody` (line 609). -/
def makeParticipantKeyFromBody (b : SubmitReq) : String :=
  let pk := normText b.participantKey
  if pk ≠ "" then pk
  else
    let employeeId := normText (b.participant.bind ReqParticipant.employeeId)
    let name := jsLower (normText (b.participant.bind ReqParticipant.name))
    if employeeId ≠ "" then "eid:" ++ employeeId
    else if name ≠ "" then "name:" ++ name
    else ""

/-- `submissionKey` (line 623): participant-keyed with prefix p, else
    token-keyed with prefix t. -/
def submissionKey (token participantKey : String) : String :=
  let pk := normText (some participantKey)
  if pk ≠ "" then "p:" ++ pk else "t:" ++ normText (some token)

/-- JS object lookup on the quizSubmissions map, modeled as an
    association list. -/
def lookupSub (m : List (String × Submission)) (k : String) : Option Submission :=
  (m.find? (fun kv => kv.1 == k)).map Prod.snd

/-- The spread `{...subMap, [k]: v}` (line 876), up to key-lookup
    semantics: `k` now maps to `v`, every other key is unchanged. -/
def setSub (m : List (String × Submission)) (k : String) (v : Submission) :
    List (String × Submission) :=
  (m.filter (fun kv => !(kv.1 == k))) ++ [(k, v)]

/-- `getSubmission` (line 630): the map entry under the submission key,
    else the legacy single `quizSubmission` when its token matches. -/
def getSubmission (p : TrainingPayload) (token participantKey : String) : Option Submission :=
  let fromMap :=
    match p.quizSubmissions with
    | some m => lookupSub m (submissionKey token participantKey)
    | none => none
  match fromMap with
  | some s => some s
  | none =>
    match p.quizSubmission with
    | some s => if s.token == token then some s else none
    | none => none

/-- The correct-answer count (line 787): positions where the question's
    `Number(correct)` is finite and strictly equals the submitted
    integer answer. -/
def correctCount (questions : List Question) (answers : List ℤ) : ℕ :=
  (questions.zip answers).countP fun qa =>
    match qa.1.correct with
    | some c => decide ((qa.2 : ℚ) = c)
    | none => false

/-- Floor of log2, by fuel (the fuel `n` bounds the recursion depth). -/
def log2fuel : ℕ → ℕ → ℕ
  | 0, _ => 0
  | fuel + 1, n => if 2 ≤ n then log2fuel fuel (n / 2) + 1 else 0

/-- Floor of log2 of a natural number (0 for 0 and 1). -/
def nlog2 (n : ℕ) : ℕ := log2fuel n n

/-- Floor of log2 of the positive ratio a/b: the candidate from the
    operand bit lengths, corrected by one exact comparison. -/
def flog2 (a b : ℕ) : ℤ :=
  let k : ℤ := (nlog2 a : ℤ) - (nlog2 b : ℤ)
  if b * 2 ^ k.toNat ≤ a * 2 ^ (-k).toNat then k else k - 1

/-- Round the ratio A/B (B positive) to the nearest integer, ties to
    even: the IEEE-754 default rounding of a quotient. -/
def rne (A B : ℕ) : ℕ :=
  let m0 := A / B
  let r := A % B
  if 2 * r < B then m0
  else if B < 2 * r then m0 + 1
  else if m0 % 2 = 0 then m0 else m0 + 1

/-- The binary64 (IEEE double) value nearest the positive ratio a/b, as
    mantissa times 2 to the exponent: the exponent places the quotient
    in the 53-bit mantissa range, and the mantissa is its
    round-to-nearest-ties-to-even. The binary64 exponent range is left
    unbounded: it never binds for the magnitudes this backend computes. -/
def fl53 (a b : ℕ) : ℕ × ℤ :=
  let e : ℤ := flog2 a b - 52
  (rne (a * 2 ^ (-e).toNat) (b * 2 ^ e.toNat), e)

/-- `Math.round` of the nonnegative double m times 2 to the e: the
    nearest integer to its exact value, halves toward positive
    infinity. -/
def roundM (m : ℕ) (e : ℤ) : ℕ :=
  if 0 ≤ e then m * 2 ^ e.toNat
  else (2 * m + 2 ^ (-e).toNat) / 2 ^ ((-e).toNat + 1)

/-- `Math.round((correct / total) * 100)` (line 793) as the code runs
    it in IEEE binary64: the division is rounded to the nearest double
    m1 times 2 to the e1, the multiplication by 100 (exact product
    m1 * 100 at the same exponent) is rounded to the nearest double
    again, and Math.round takes the nearest integer, halves up. A zero
    numerator gives 0; total = 0 is unreachable (the question list is
    checked non-empty before scoring). -/
def jsScore (correct total : ℕ) : ℕ :=
  if correct = 0 ∨ total = 0 then 0
  else
    let p1 := fl53 correct total
    let p2 := fl53 (p1.1 * 100 * 2 ^ p1.2.toNat) (2 ^ (-p1.2).toNat)
    roundM p2.1 p2.2

/-- The JSON responses of POST /api/training-session/by-token/:token/submit. -/
inductive SubmitResp where
  | err400 (error : String)
  | notFound (error : String)
  | mismatch (expected got : ℕ)
  | already (score : Option ℕ) (result : Option String) (submittedAt : Option String)
  | success (reportId : ℕ) (participantKey : String) (score : ℕ) (result : String)
      (passMark : ℚ) (submittedAt : String)
deriving DecidableEq, Repr

/-- HTTP status of each submit response (`already` is the 409
    ALREADY_SUBMITTED body of line 761, `mismatch` the 400
    ANSWERS_LENGTH_MISMATCH body of line 772). -/
def SubmitResp.status : SubmitResp → ℕ
  | .err400 _ => 400
  | .notFound _ => 404
  | .mismatch _ _ => 400
  | .already _ _ _ => 409
  | .success _ _ _ _ _ _ => 200

/-- The roster hit test of line 841: match by nonempty normalized
    employeeId, falling back to case-insensitive name only when the
    submitter's employeeId key is empty. -/
def rosterHit (eidKey nameKey : String) (pp : Participant) : Bool :=
  let ppEid := normKey pp.employeeId
  let ppName := normKey pp.name
  (eidKey != "" && ppEid != "" && ppEid == eidKey) ||
  (eidKey == "" && ppName != "" && ppName == nameKey)

/-- The matched-participant update of line 845. -/
def rosterUpdate (pName pDesignation pEmployeeId : String) (score : ℕ)
    (result today : String) (snap : AttemptSnapshot) (pp : Participant) : Participant :=
  { pp with
    name := jsOr pName (jsOr pp.name "")
    designation := jsOr pDesignation (jsOr pp.designation "")
    employeeId := jsOr pEmployeeId (jsOr pp.employeeId "")
    score := some (toString score)
    result := some (jsUpper result)
    lastQuizAt := some today
    quizAttempt := some snap }

/-- The appended roster entry of line 859, with the next sequential slNo. -/
def newRosterEntry (slNo : ℕ) (pName pDesignation pEmployeeId : String) (score : ℕ)
    (result today : String) (snap : AttemptSnapshot) : Participant :=
  { slNo := toString slNo
    name := pName
    designation := pDesignation
    employeeId := pEmployeeId
    score := some (toString score)
    result := some (jsUpper result)
    lastQuizAt := some today
    quizAttempt := some snap
    rest := "" }

/-- The attempt snapshot built at line 798 from the quiz, the computed
    grade, and the validated integer answers. -/
def mkSnapshot (quiz : Quiz) (now : String) (passMark : ℚ) (score : ℕ)
    (result : String) (ints : List ℤ) : AttemptSnapshot :=
  { module := jsOr quiz.module ""
    submittedAt := now
    passMark := passMark
    score := score
    result := result
    answers := (quiz.questions.zip ints).map fun qa =>
      { q_ar := jsOrO qa.1.q_ar ""
        q_en := jsOrO qa.1.q_en ""
        options_ar := qa.1.options_ar.getD []
        options_en := qa.1.options_en.getD []
        correct := qa.1.correct.getD 0
        chosen := qa.2 } }

/-- The validated integer answers of a submit request. -/
def subIntsOf (req : SubmitReq) : List ℤ := (req.answers.getD []).map JsAns.toInt

/-- The score the submit handler computes (line 793). -/
def subScoreOf (p : TrainingPayload) (ints : List ℤ) : ℕ :=
  jsScore (correctCount (extractQuiz p).questions ints) (extractQuiz p).questions.length

/-- The PASS/FAIL result the submit handler computes (line 795). -/
def subResultOf (p : TrainingPayload) (ints : List ℤ) : String :=
  if (subScoreOf p ints : ℚ) ≥ (extractQuiz p).passMark then "PASS" else "FAIL"

/-- The new roster list the submit handler stores (lines 832-871):
    update every hit participant, appending a fresh entry with the next
    sequential slNo when none hit. The in-loop `found` flag of line 836
    is computed by `any` of the same per-element hit test. -/
def subNewRoster (today pName pDesignation pEmployeeId : String) (score : ℕ)
    (result : String) (snap : AttemptSnapshot) (participants : List Participant) :
    List Participant :=
  let eidKey := normKey pEmployeeId
  let nameKey := normKey pName
  let updated := participants.map fun pp =>
    if rosterHit eidKey nameKey pp then
      rosterUpdate pName pDesignation pEmployeeId score result today snap pp
    else pp
  if participants.any (rosterHit eidKey nameKey) then updated
  else updated ++ [newRosterEntry (updated.length + 1) pName pDesignation pEmployeeId
                    score result today snap]

/-- The new payload the submit handler stores (line 873): roster plus the
    ledger entry under the submission key. -/
def subNewPayload (now today token pKey pName pDesignation pEmployeeId : String)
    (ints : List ℤ) (payload : TrainingPayload) : TrainingPayload :=
  let quiz := extractQuiz payload
  let score := subScoreOf payload ints
  let result := subResultOf payload ints
  let snap := mkSnapshot quiz now quiz.passMark score result ints
  let submission : Submission :=
    ⟨token, pKey, ⟨pName, pDesignation, pEmployeeId⟩, now, quiz.passMark, score, result, ints⟩
  { payload with
    participants := some (subNewRoster today pName pDesignation pEmployeeId score result snap
      (payload.participants.getD []))
    quizSubmissions := some (setSub (payload.quizSubmissions.getD [])
      (submissionKey token pKey) submission) }

/-- The write phase of the submit handler (lines 787-894): grade, build
    the ledger entry and snapshot, update or append the roster
    participant, store the new payload, and answer 200 with the grade. -/
def submitWrite (now today token pKey pName pDesignation pEmployeeId : String)
    (ints : List ℤ) (reportId : ℕ) (payload : TrainingPayload) :
    SubmitResp × Option (ℕ × TrainingPayload) :=
  (.success reportId pKey (subScoreOf payload ints) (subResultOf payload ints)
      (extractQuiz payload).passMark now,
   some (reportId, subNewPayload now today token pKey pName pDesignation pEmployeeId ints payload))

/-- POST /api/training-session/by-token/:token/submit (line 704). The
    store is the single training_session row the token query locks FOR
    UPDATE (line 731); `none` models SESSION_NOT_FOUND. `now` and
    `today` stand for `new Date().toISOString()` and `todayISO()`. Every
    early return before the final UPDATE leaves the row unchanged
    (the transaction is rolled back). -/
def submit (now today : String) (req : SubmitReq) (row : Option (ℕ × TrainingPayload)) :
    SubmitResp × Option (ℕ × TrainingPayload) :=
  let token := normText (some req.token)
  if token = "" then (.err400 "token required", row) else
  let answers := req.answers.getD []
  if answers = [] then (.err400 "answers required", row) else
  let pName := normText (req.participant.bind ReqParticipant.name)
  let pDesignation := normText (req.participant.bind ReqParticipant.designation)
  let pEmployeeId := normText (req.participant.bind ReqParticipant.employeeId)
  let pKey := makeParticipantKeyFromBody req
  if pKey = "" then (.err400 "participantKey required (or participant.employeeId/name)", row) else
  if pName = "" then (.err400 "participant.name required", row) else
  if pEmployeeId = "" then (.err400 "participant.employeeId required", row) else
  match row with
  | none => (.notFound "SESSION_NOT_FOUND", none)
  | some (reportId, payload) =>
    let quiz := extractQuiz payload
    if quiz.questions = [] then (.err400 "NO_QUIZ_IN_REPORT", row) else
    match getSubmission payload token pKey with
    | some existing =>
        (.already (some existing.score) (some existing.result) (some existing.submittedAt), row)
    | none =>
      if answers.length ≠ quiz.questions.length then
        (.mismatch quiz.questions.length answers.length, row)
      else
        match answers.findIdx? (fun a => !a.isInt) with
        | some i => (.err400 ("INVALID_ANSWER_AT_" ++ toString i), row)
        | none =>
          submitWrite now today token pKey pName pDesignation pEmployeeId
            (answers.map JsAns.toInt) reportId payload

/-- The quiz object of the GET /api/training-session/by-token response
    (lines 667-693): `none` when the session has no questions
    (NO_QUIZ_IN_REPORT). -/
def byTokenQuiz (p : TrainingPayload) : Option Quiz :=
  let quiz := extractQuiz p
  if quiz.questions = [] then none else some quiz

/-! Concrete fixtures shared by several witnesses. -/

/-- A four-question quiz with correct indices 0, 1, 2, 3. -/
def fxQuestions : List Question :=
  [⟨none, none, none, none, some 0⟩, ⟨none, none, none, none, some 1⟩,
   ⟨none, none, none, none, some 2⟩, ⟨none, none, none, none, some 3⟩]

/-- A training_session payload holding `fxQuestions` under token tok,
    with a given (possibly absent) quiz passMark field. -/
def fxPayload (pm : Option NumVal) : TrainingPayload :=
  ⟨some "tok", some ⟨some "HACCP", pm, some fxQuestions⟩, none, none, none, none, none,
   none, none, some [], none, none, "rest"⟩

/-- The answers array 0, 1, 9, 3. -/
def fxAnswers : List JsAns := [.int 0, .int 1, .int 9, .int 3]

/-- A well-formed submit request for `fxPayload`. -/
def fxReq : SubmitReq :=
  ⟨"tok", none, some ⟨some "Ali", some "QA", some "E1"⟩, some fxAnswers⟩

/-- A roster with one participant lacking an employeeId and one holding a
    different employeeId than `fxReq`'s submitter. -/
def fxParticipants : List Participant :=
  [⟨"1", "Omar", "", "", none, none, none, none, ""⟩,
   ⟨"2", "Sara", "QA", "E2", none, none, none, none, ""⟩]

/-- `fxPayload` with passMark 75 and the `fxParticipants` roster. -/
def fxPayloadR : TrainingPayload :=
  ⟨some "tok", some ⟨some "HACCP", some (some 75), some fxQuestions⟩, none, none, none,
   none, none, none, none, some fxParticipants, none, none, "rest"⟩

/-- A forty-question quiz whose correct index is 0 throughout. -/
def fx40Questions : List Question := List.replicate 40 ⟨none, none, none, none, some 0⟩

/-- Answers hitting the first 23 of the 40 questions and missing the rest. -/
def fx40Answers : List JsAns := List.replicate 23 (.int 0) ++ List.replicate 17 (.int 1)

/-- A training_session payload holding `fx40Questions` with passMark 50. -/
def fx40Payload : TrainingPayload :=
  ⟨some "tok", some ⟨some "HACCP", some (some 50), some fx40Questions⟩, none, none, none,
   none, none, none, none, some [], none, none, "rest"⟩

/-- A well-formed submit request answering `fx40Payload`. -/
def fx40Req : SubmitReq :=
  ⟨"tok", none, some ⟨some "Ali", some "QA", some "E1"⟩, some fx40Answers⟩

/-! Theorems. String-level helper lemmas first. -/

/-- The first element of a prefix is the first element of the whole list. -/
theorem prefix_get_zero {α : Type} {b a : List α} (h : b <+: a) (hb : 0 < b.length)
    (ha : 0 < a.length) : b.get ⟨0, hb⟩ = a.get ⟨0, ha⟩ := by
  obtain ⟨t, rfl⟩ := h
  exact (List.get_append 0 hb).symm

/-- Dropping leading whitespace is a no-op after a trim. -/
theorem dropWhile_rdropWhile (p : Char → Bool) (l : List Char) :
    List.dropWhile p (List.rdropWhile p (List.dropWhile p l)) =
      List.rdropWhile p (List.dropWhile p l) := by
  rw [List.dropWhile_eq_self_iff]
  intro hl
  have hpre := List.rdropWhile_prefix p (List.dropWhile p l)
  have hla : 0 < (List.dropWhile p l).length := lt_of_lt_of_le hl hpre.length_le
  rw [prefix_get_zero hpre hl hla]
  have hne : List.dropWhile p l ≠ [] := by
    intro hnil
    rw [hnil] at hla
    simp at hla
  have h0 := List.head_dropWhile_not p l hne
  rw [List.head_eq_getElem] at h0
  rw [List.get_eq_getElem]
  simp [h0]

/-- `jsTrim` is idempotent. -/
theorem jsTrim_idem (s : String) : jsTrim (jsTrim s) = jsTrim s := by
  apply String.ext
  show List.rdropWhile _ (List.dropWhile _ (List.rdropWhile _ (List.dropWhile _ s.data))) =
    List.rdropWhile _ (List.dropWhile _ s.data)
  rw [dropWhile_rdropWhile, List.rdropWhile_idempotent]

/-- Lowercasing preserves emptiness. -/
theorem jsLower_empty_iff (s : String) : jsLower s = "" ↔ s = "" := by
  constructor
  · intro h
    apply String.ext
    have h2 : (jsLower s).data = [] := by rw [h]
    simpa [jsLower] using h2
  · intro h; rw [h]; rfl

/-- The normalized key of a nonempty trimmed text is nonempty. -/
theorem normKey_normText_ne (v : Option String) (h : normText v ≠ "") :
    normKey (normText v) ≠ "" := by
  unfold normKey
  have h2 : jsTrim (normText v) = normText v := jsTrim_idem (v.getD "")
  rw [h2]
  exact fun hc => h ((jsLower_empty_iff (normText v)).1 hc)

/-! Reports-side helper lemmas. -/

/-- The row-match predicate as a proposition. -/
theorem rowMatch_iff (t d : String) (r : Record) :
    rowMatch t d r = true ↔ r.type = t ∧ r.payload.reportDate = some d := by
  simp [rowMatch]

/-- The upsert UPDATE keeps every (type, reportDate) key of the rows it
    rewrites. -/
theorem rowMatch_after_update (t d t2 d2 : String) (ra : Option String) (pl : RPayload)
    (now : ℕ) (r : Record) (hpl : pl.reportDate = some d) (hr : rowMatch t d r = true) :
    rowMatch t2 d2 (updRow ra pl now r) = rowMatch t2 d2 r := by
  obtain ⟨h1, h2⟩ := (rowMatch_iff t d r).1 hr
  simp [rowMatch, updRow, hpl, h2]

/-- The UPDATE statement preserves the per-key row counts. -/
theorem countP_sqlUpdate (ra : Option String) (pl : RPayload) (t d : String) (now : ℕ)
    (s : List Record) (hpl : pl.reportDate = some d) (t2 d2 : String) :
    ((sqlUpdate ra pl t d now s).1).countP (rowMatch t2 d2) = s.countP (rowMatch t2 d2) := by
  unfold sqlUpdate
  dsimp only
  rw [List.countP_map]
  apply List.countP_congr
  intro r hr
  by_cases h : rowMatch t d r = true
  · simp only [Function.comp_apply, if_pos h]
    rw [rowMatch_after_update t d t2 d2 ra pl now r hpl h]
  · simp only [Function.comp_apply, if_neg h]

/-- An upsert UPDATE that matches no row leaves the thread at the insert
    phase with the store unchanged. -/
theorem ustep_update_miss (nextId now : ℕ) (j : UpsertJob) (s : List Record)
    (h : s.countP (rowMatch j.type j.date) = 0) :
    ustep nextId now (UThread.toUpdate j) s = (.toInsert j, s) := by
  have hfil : s.filter (rowMatch j.type j.date) = [] := by
    have h2 : (s.filter (rowMatch j.type j.date)).length = 0 := by
      rw [← List.countP_eq_length_filter]
      exact h
    exact List.length_eq_zero.1 h2
  simp [ustep, sqlUpdate, hfil]

/-- An upsert UPDATE that matches rows answers okUpdate with the first
    rewritten row and rewrites the store. -/
theorem ustep_update_hit (nextId now : ℕ) (j : UpsertJob) (s : List Record)
    (r0 : Record) (rest : List Record)
    (hfil : s.filter (rowMatch j.type j.date) = r0 :: rest) :
    ustep nextId now (UThread.toUpdate j) s =
      (.done (.okUpdate (updRow j.reporterArg j.payload now r0)),
       (sqlUpdate j.reporterArg j.payload j.type j.date now s).1) := by
  simp [ustep, sqlUpdate, hfil]

/-- The fallback INSERT on a key with no existing row commits a new row. -/
theorem sqlInsert_fresh (reporter t : String) (pl : RPayload) (nextId now : ℕ)
    (s : List Record) (d : String) (hpl : pl.reportDate = some d)
    (h : s.countP (rowMatch t d) = 0) :
    sqlInsert reporter t pl nextId now s =
      .ok (s ++ [⟨nextId, reporter, t, pl, now, now⟩], ⟨nextId, reporter, t, pl, now, now⟩) := by
  have hany : (s.any fun r => r.type == t && r.payload.reportDate == pl.reportDate) = false := by
    rw [hpl, List.any_eq_false]
    intro r hr
    have h2 := List.countP_eq_zero.1 h r hr
    simpa [rowMatch] using h2
  unfold sqlInsert
  simp [hany]

/-- The fallback INSERT on a key that a concurrent insert just took
    fails with the 23505 uniqueness violation. -/
theorem sqlInsert_dup (reporter t : String) (pl : RPayload) (nextId now : ℕ)
    (s : List Record) (d : String) (hpl : pl.reportDate = some d)
    (r0 : Record) (hr0 : r0 ∈ s) (hm : rowMatch t d r0 = true) :
    sqlInsert reporter t pl nextId now s =
      .error ⟨ "23505",
        "duplicate key value violates unique constraint ux_reports_type_reportdate"⟩ := by
  have hm2 := (rowMatch_iff t d r0).1 hm
  unfold sqlInsert
  have hcond : (pl.reportDate.isSome &&
      s.any fun r => r.type == t && r.payload.reportDate == pl.reportDate) = true := by
    rw [hpl]
    rw [Bool.and_eq_true]
    refine ⟨rfl, ?_⟩
    rw [List.any_eq_true]
    exact ⟨r0, hr0, by simp [hm2.1, hm2.2]⟩
  rw [if_pos hcond]

/-- Inverting a successful fallback INSERT: the store gained exactly the
    new row and its key had no prior row. -/
theorem sqlInsert_ok_inv (reporter t : String) (pl : RPayload) (nextId now : ℕ)
    (s s2 : List Record) (r : Record)
    (h : sqlInsert reporter t pl nextId now s = .ok (s2, r)) :
    s2 = s ++ [⟨nextId, reporter, t, pl, now, now⟩] ∧
      r = ⟨nextId, reporter, t, pl, now, now⟩ ∧
      ∀ t2 d2, rowMatch t2 d2 (⟨nextId, reporter, t, pl, now, now⟩ : Record) = true →
        s.countP (rowMatch t2 d2) = 0 := by
  unfold sqlInsert at h
  split at h
  · exact absurd h (by simp)
  · rename_i hcond
    rw [Except.ok.injEq, Prod.mk.injEq] at h
    refine ⟨h.1.symm, h.2.symm, ?_⟩
    intro t2 d2 hm
    obtain ⟨hty, hrd⟩ := (rowMatch_iff t2 d2 _).1 hm
    dsimp only at hty hrd
    rw [List.countP_eq_zero]
    intro a ha hma
    apply hcond
    obtain ⟨haty, hard⟩ := (rowMatch_iff t2 d2 a).1 hma
    rw [Bool.and_eq_true]
    refine ⟨by simp [hrd], ?_⟩
    rw [List.any_eq_true]
    refine ⟨a, ha, ?_⟩
    simp [haty, hard, hrd, hty]

/-- Appending a row whose key is fresh keeps the uniqueness invariant. -/
theorem uniq_append_fresh (s : List Record) (r : Record)
    (h0 : ∀ t d, rowMatch t d r = true → s.countP (rowMatch t d) = 0) (hU : Uniq s) :
    Uniq (s ++ [r]) := by
  intro t d
  rw [List.countP_append]
  by_cases h : rowMatch t d r = true
  · have h2 := h0 t d h
    simp [h2, List.countP_cons, h]
  · have h2 := hU t d
    simp only [List.countP_cons, List.countP_nil, if_neg h]
    omega

/-- The insert phase of an upsert reaches a response in one step: there
    is no retry loop after a uniqueness violation. -/
theorem insert_no_retry (j : UpsertJob) (nextId now : ℕ) (s : List Record) :
    ∃ resp s2, ustep nextId now (UThread.toInsert j) s = (.done resp, s2) := by
  rcases h : sqlInsert j.reporterIns j.type j.payload nextId now s with e | ⟨s2, r⟩
  · exact ⟨catchMap j.route e, s, by simp [ustep, h]⟩
  · exact ⟨.created r, s2, by simp [ustep, h]⟩

/-- Every SQL step of an upsert preserves the uniqueness invariant. -/
theorem ustep_uniq (nextId now : ℕ) (th : UThread) (s : List Record)
    (hwf : th.wf) (hU : Uniq s) : Uniq (ustep nextId now th s).2 := by
  cases th with
  | toUpdate j =>
    rcases hfil : s.filter (rowMatch j.type j.date) with _ | ⟨r0, rest⟩
    · rw [ustep_update_miss nextId now j s
        (by rw [List.countP_eq_length_filter, hfil]; rfl)]
      exact hU
    · rw [ustep_update_hit nextId now j s r0 rest hfil]
      intro t d
      rw [countP_sqlUpdate j.reporterArg j.payload j.type j.date now s hwf t d]
      exact hU t d
  | toInsert j =>
    rcases h : sqlInsert j.reporterIns j.type j.payload nextId now s with e | ⟨s2, r⟩
    · simpa [ustep, h] using hU
    · obtain ⟨hs2, _, h0⟩ := sqlInsert_ok_inv j.reporterIns j.type j.payload nextId now s s2 r h
      have h2 : Uniq s2 := by
        rw [hs2]
        exact uniq_append_fresh s _ h0 hU
      simpa [ustep, h] using h2
  | done r => simpa [ustep] using hU

/-- A full sequential run of an upsert job: the invariant holds after,
    exactly one row holds the job's key, that row carries the job's
    payload, and the response method says update exactly when a row
    matched before the call. -/
theorem runUpsert_spec (j : UpsertJob) (hWF : j.payload.reportDate = some j.date)
    (nextId now : ℕ) (s : List Record) (hU : Uniq s) :
    Uniq (runUpsert j nextId now s).2 ∧
    (runUpsert j nextId now s).2.countP (rowMatch j.type j.date) = 1 ∧
    (∀ r ∈ (runUpsert j nextId now s).2, rowMatch j.type j.date r = true →
      r.payload = j.payload) ∧
    (runUpsert j nextId now s).1.method =
      some (if s.any (rowMatch j.type j.date) then "update" else "insert") := by
  rcases hfil : s.filter (rowMatch j.type j.date) with _ | ⟨r0, rest⟩
  · have hcnt : s.countP (rowMatch j.type j.date) = 0 := by
      rw [List.countP_eq_length_filter, hfil]; rfl
    have hany : s.any (rowMatch j.type j.date) = false := by
      rw [List.any_eq_false]
      intro r hr
      exact List.countP_eq_zero.1 hcnt r hr
    have hins := sqlInsert_fresh j.reporterIns j.type j.payload nextId now s j.date hWF hcnt
    have hrun : runUpsert j nextId now s =
        (.created ⟨nextId, j.reporterIns, j.type, j.payload, now, now⟩,
         s ++ [⟨nextId, j.reporterIns, j.type, j.payload, now, now⟩]) := by
      unfold runUpsert
      rw [ustep_update_miss nextId now j s hcnt]
      simp [ustep, hins]
    rw [hrun]
    have hmatch : rowMatch j.type j.date
        (⟨nextId, j.reporterIns, j.type, j.payload, now, now⟩ : Record) = true := by
      rw [rowMatch_iff]
      exact ⟨rfl, hWF⟩
    refine ⟨?_, ?_, ?_, by simp [hany, UpsertResp.method]⟩
    · apply uniq_append_fresh s _ ?_ hU
      intro t d hm
      obtain ⟨h1, h2⟩ := (rowMatch_iff t d _).1 hm
      have ht : t = j.type := h1.symm
      have hd : d = j.date := by
        rw [hWF] at h2
        injection h2 with h3
        exact h3.symm
      rw [ht, hd]
      exact hcnt
    · rw [List.countP_append, hcnt]
      simp [List.countP_cons, hmatch]
    · intro r hr hm
      rcases List.mem_append.1 hr with h | h
      · exact absurd hm (List.countP_eq_zero.1 hcnt r h)
      · have h2 : r = ⟨nextId, j.reporterIns, j.type, j.payload, now, now⟩ := by
          simpa using h
        rw [h2]
  · have hr0 : r0 ∈ s ∧ rowMatch j.type j.date r0 = true := by
      have h2 : r0 ∈ s.filter (rowMatch j.type j.date) := by
        rw [hfil]
        simp
      exact List.mem_filter.1 h2
    have hany : s.any (rowMatch j.type j.date) = true := by
      rw [List.any_eq_true]
      exact ⟨r0, hr0.1, hr0.2⟩
    have hrun : runUpsert j nextId now s =
        (.okUpdate (updRow j.reporterArg j.payload now r0),
         (sqlUpdate j.reporterArg j.payload j.type j.date now s).1) := by
      unfold runUpsert
      rw [ustep_update_hit nextId now j s r0 rest hfil]
    rw [hrun]
    refine ⟨?_, ?_, ?_, by simp [hany, UpsertResp.method]⟩
    · intro t d
      rw [countP_sqlUpdate j.reporterArg j.payload j.type j.date now s hWF t d]
      exact hU t d
    · rw [countP_sqlUpdate j.reporterArg j.payload j.type j.date now s hWF j.type j.date]
      have h1 : 1 ≤ s.countP (rowMatch j.type j.date) := by
        rw [List.countP_eq_length_filter, hfil]
        simp
      exact le_antisymm (hU j.type j.date) h1
    · intro r hr hm
      obtain ⟨r2, hr2, hfr⟩ := List.mem_map.1 hr
      by_cases h : rowMatch j.type j.date r2 = true
      · rw [← hfr]
        simp [h, updRow]
      · rw [← hfr, if_neg h] at hm
        exact absurd hm h

/-- Validation of PUT /api/reports hands the SQL phases a well-formed
    base-route job. -/
theorem putReportsStart_wf (b : PutReq) (j : UpsertJob)
    (h : putReportsStart b = .ok j) :
    j.payload.reportDate = some j.date ∧ j.route = .base := by
  unfold putReportsStart at h
  dsimp only at h
  by_cases h1 : normText b.type = ""
  · rw [if_pos h1] at h
    exact absurd h (by simp)
  · rw [if_neg h1] at h
    rcases hp : b.payload with _ | p0
    · rw [hp] at h
      exact absurd h (by simp)
    · rw [hp] at h
      dsimp only at h
      by_cases h2 : normText (some (jsOrO p0.reportDate "")) = ""
      · rw [if_pos h2] at h
        exact absurd h (by simp)
      · rw [if_neg h2] at h
        rw [Except.ok.injEq] at h
        subst h
        exact ⟨rfl, rfl⟩

/-- Setting an already-present reportDate back into a payload changes
    nothing. -/
theorem rpayload_eta (p : RPayload) (d : String) (hp : p.reportDate = some d) :
    { p with reportDate := some d } = p := by
  cases p with
  | mk rd inv rest =>
    have h2 : rd = some d := hp
    rw [h2]

/-- Validation of PUT /api/reports on a clean body: trimmed nonempty
    type, payload already carrying its trimmed nonempty reportDate. -/
theorem putReportsStart_clean (reporter : Option String) (t d : String) (p : RPayload)
    (ht : jsTrim t = t) (ht0 : t ≠ "") (hp : p.reportDate = some d) (hd : jsTrim d = d)
    (hd0 : d ≠ "") :
    putReportsStart ⟨reporter, some t, some p, none⟩ =
      .ok ⟨.base,
        if normText (some (jsOrO reporter "anonymous")) = "" then none
        else some (normText (some (jsOrO reporter "anonymous"))),
        normText (some (jsOrO reporter "anonymous")), t, d, p⟩ := by
  have h1 : normText (some t) = t := by simpa [normText] using ht
  have h2 : jsOrO p.reportDate "" = d := by rw [hp]; simp [jsOrO, hd0]
  have h3 : normText (some d) = d := by simpa [normText] using hd
  unfold putReportsStart
  dsimp only
  rw [h1, if_neg ht0, h2, h3, if_neg hd0, rpayload_eta p d hp]

/-- A validated PUT /api/reports call is exactly a run of its job. -/
theorem putReports_eq_run (b : PutReq) (j : UpsertJob) (nextId now : ℕ) (s : List Record)
    (hj : putReportsStart b = .ok j) :
    putReports b nextId now s = runUpsert j nextId now s := by
  unfold putReports
  rw [hj]

/-- N sequential clean upserts on one (type, reportDate): the invariant
    holds throughout and exactly one row remains, holding the last
    payload. -/
theorem putReportsSeq_spec (reporter : Option String) (t d : String)
    (ht : jsTrim t = t) (ht0 : t ≠ "") (hd : jsTrim d = d) (hd0 : d ≠ "")
    (ps : List RPayload) (hpd : ∀ p ∈ ps, p.reportDate = some d)
    (plast : RPayload) (hlast : ps.getLast? = some plast)
    (nextId now : ℕ) (s : List Record) (hU : Uniq s) :
    Uniq (putReportsSeq (ps.map fun p => ⟨reporter, some t, some p, none⟩) nextId now s) ∧
    (putReportsSeq (ps.map fun p => ⟨reporter, some t, some p, none⟩) nextId now s).countP
      (rowMatch t d) = 1 ∧
    ∀ r ∈ putReportsSeq (ps.map fun p => ⟨reporter, some t, some p, none⟩) nextId now s,
      rowMatch t d r = true → r.payload = plast := by
  induction ps generalizing plast nextId now s with
  | nil => simp at hlast
  | cons p rest ih =>
    have hp : p.reportDate = some d := hpd p (by simp)
    have hstart := putReportsStart_clean reporter t d p ht ht0 hp hd hd0
    have hrun := putReports_eq_run ⟨reporter, some t, some p, none⟩
      ⟨.base,
        if normText (some (jsOrO reporter "anonymous")) = "" then none
        else some (normText (some (jsOrO reporter "anonymous"))),
        normText (some (jsOrO reporter "anonymous")), t, d, p⟩ nextId now s hstart
    have hspec := runUpsert_spec
      ⟨.base,
        if normText (some (jsOrO reporter "anonymous")) = "" then none
        else some (normText (some (jsOrO reporter "anonymous"))),
        normText (some (jsOrO reporter "anonymous")), t, d, p⟩ hp nextId now s hU
    rcases rest with _ | ⟨q, rest2⟩
    · have hplast : plast = p := by
        simp at hlast
        exact hlast.symm
      subst hplast
      have hseq : putReportsSeq ([plast].map fun p2 => ⟨reporter, some t, some p2, none⟩)
          nextId now s = (putReports ⟨reporter, some t, some plast, none⟩ nextId now s).2 := by
        simp [putReportsSeq]
      rw [hseq, hrun]
      exact ⟨hspec.1, hspec.2.1, hspec.2.2.1⟩
    · have hseq : putReportsSeq ((p :: q :: rest2).map fun p2 => ⟨reporter, some t, some p2, none⟩)
          nextId now s =
          putReportsSeq ((q :: rest2).map fun p2 => ⟨reporter, some t, some p2, none⟩)
            (nextId + 1) (now + 1) (putReports ⟨reporter, some t, some p, none⟩ nextId now s).2 := by
        simp [putReportsSeq]
      rw [hseq, hrun]
      have hlast2 : (q :: rest2).getLast? = some plast := by
        rw [← hlast]
        rfl
      exact ih (fun p2 hp2 => hpd p2 (by simp [hp2])) plast hlast2 (nextId + 1) (now + 1)
        (runUpsert _ nextId now s).2 hspec.1

/-- Claim C2: for every (type, reportDate) pair at most one Record exists
    and every SQL step of every upsert route preserves that invariant;
    after N sequential successful PUT /api/reports upserts with one pair
    exactly one Record exists and its payload is the Nth call's payload
    (last-writer-wins); and the response reports method update exactly
    when an existing row matched and insert otherwise. -/
theorem claimC2_upsert_invariant_lastWriterWins (reporter : Option String) (t d : String)
    (ht : jsTrim t = t) (ht0 : t ≠ "") (hd : jsTrim d = d) (hd0 : d ≠ "")
    (ps : List RPayload) (hpd : ∀ p ∈ ps, p.reportDate = some d)
    (plast : RPayload) (hlast : ps.getLast? = some plast)
    (nextId now : ℕ) (s : List Record) (hU : Uniq s) :
    (∀ nid nw th s2, UThread.wf th → Uniq s2 → Uniq (ustep nid nw th s2).2) ∧
    Uniq (putReportsSeq (ps.map fun p => ⟨reporter, some t, some p, none⟩) nextId now s) ∧
    (putReportsSeq (ps.map fun p => ⟨reporter, some t, some p, none⟩) nextId now s).countP
      (rowMatch t d) = 1 ∧
    (∀ r ∈ putReportsSeq (ps.map fun p => ⟨reporter, some t, some p, none⟩) nextId now s,
      rowMatch t d r = true → r.payload = plast) ∧
    (∀ b j nid nw s2, putReportsStart b = .ok j → Uniq s2 →
      (putReports b nid nw s2).1.method =
        some (if s2.any (rowMatch j.type j.date) then "update" else "insert")) := by
  obtain ⟨h1, h2, h3⟩ :=
    putReportsSeq_spec reporter t d ht ht0 hd hd0 ps hpd plast hlast nextId now s hU
  refine ⟨fun nid nw th s2 hwf hU2 => ustep_uniq nid nw th s2 hwf hU2, h1, h2, h3, ?_⟩
  intro b j nid nw s2 hj hU2
  rw [putReports_eq_run b j nid nw s2 hj]
  exact (runUpsert_spec j (putReportsStart_wf b j hj).1 nid nw s2 hU2).2.2.2

/-- Claim C2 (witness): two sequential upserts of type qcs on
    2024-01-01 starting from the empty store leave exactly one matching
    row, and it carries the second payload. -/
theorem claimC2_witness :
    (putReportsSeq
      ([⟨some "2024-01-01", none, "A"⟩, ⟨some "2024-01-01", none, "B"⟩].map
        fun p => (⟨none, some "qcs", some p, none⟩ : PutReq)) 1 0 []).countP
      (rowMatch "qcs" "2024-01-01") = 1 ∧
    ∀ r ∈ putReportsSeq
      ([⟨some "2024-01-01", none, "A"⟩, ⟨some "2024-01-01", none, "B"⟩].map
        fun p => (⟨none, some "qcs", some p, none⟩ : PutReq)) 1 0 [],
      rowMatch "qcs" "2024-01-01" r = true → r.payload = ⟨some "2024-01-01", none, "B"⟩ := by
  have h := claimC2_upsert_invariant_lastWriterWins none "qcs" "2024-01-01"
    (by decide) (by decide) (by decide) (by decide)
    [⟨some "2024-01-01", none, "A"⟩, ⟨some "2024-01-01", none, "B"⟩]
    (by decide) ⟨some "2024-01-01", none, "B"⟩ (by decide) 1 0 []
    (by unfold Uniq; intro t d; simp)
  exact ⟨h.2.2.1, h.2.2.2.1⟩

/-- Claim C1: two PUT /api/reports requests racing on the same fresh
    (type, reportDate): both conditional UPDATEs miss, the first INSERT
    commits, the second INSERT hits the uniqueness violation, which the
    route catches and answers as the 409 conflict (no crash, no
    duplicate row); exactly one Record results, and the insert phase
    reaches a response in one step, so no retry loop runs. -/
theorem claimC1_upsert_race (bA bB : PutReq) (jA jB : UpsertJob)
    (hA : putReportsStart bA = .ok jA) (hB : putReportsStart bB = .ok jB)
    (hkt : jB.type = jA.type) (hkd : jB.date = jA.date)
    (nA nB nowA nowB : ℕ) (s0 : List Record) (hU : Uniq s0)
    (hfresh : s0.countP (rowMatch jA.type jA.date) = 0) :
    ustep nA nowA (UThread.toUpdate jA) s0 = (.toInsert jA, s0) ∧
    ustep nB nowB (UThread.toUpdate jB) s0 = (.toInsert jB, s0) ∧
    ustep nA nowA (UThread.toInsert jA) s0 =
      (.done (.created ⟨nA, jA.reporterIns, jA.type, jA.payload, nowA, nowA⟩),
       s0 ++ [⟨nA, jA.reporterIns, jA.type, jA.payload, nowA, nowA⟩]) ∧
    ustep nB nowB (UThread.toInsert jB)
        (s0 ++ [⟨nA, jA.reporterIns, jA.type, jA.payload, nowA, nowA⟩]) =
      (.done .conflict, s0 ++ [⟨nA, jA.reporterIns, jA.type, jA.payload, nowA, nowA⟩]) ∧
    UpsertResp.conflict.status = 409 ∧
    (s0 ++ [(⟨nA, jA.reporterIns, jA.type, jA.payload, nowA, nowA⟩ : Record)]).countP
      (rowMatch jA.type jA.date) = 1 ∧
    Uniq (s0 ++ [⟨nA, jA.reporterIns, jA.type, jA.payload, nowA, nowA⟩]) ∧
    (∀ j nid nw s2, ∃ resp s3,
      ustep nid nw (UThread.toInsert j) s2 = (.done resp, s3)) := by
  have hwfA := (putReportsStart_wf bA jA hA).1
  have hwfB := (putReportsStart_wf bB jB hB).1
  have hrouteB := (putReportsStart_wf bB jB hB).2
  have hfreshB : s0.countP (rowMatch jB.type jB.date) = 0 := by
    rw [hkt, hkd]
    exact hfresh
  have hmatchA : rowMatch jA.type jA.date
      (⟨nA, jA.reporterIns, jA.type, jA.payload, nowA, nowA⟩ : Record) = true := by
    rw [rowMatch_iff]
    exact ⟨rfl, hwfA⟩
  have hinsA := sqlInsert_fresh jA.reporterIns jA.type jA.payload nA nowA s0 jA.date hwfA hfresh
  have hdupB := sqlInsert_dup jB.reporterIns jB.type jB.payload nB nowB
    (s0 ++ [⟨nA, jA.reporterIns, jA.type, jA.payload, nowA, nowA⟩]) jB.date hwfB
    (⟨nA, jA.reporterIns, jA.type, jA.payload, nowA, nowA⟩ : Record) (by simp)
    (by rw [hkt, hkd]; exact hmatchA)
  refine ⟨ustep_update_miss nA nowA jA s0 hfresh,
    ustep_update_miss nB nowB jB s0 hfreshB,
    by simp [ustep, hinsA],
    by simp [ustep, hdupB, catchMap, hrouteB],
    rfl, ?_, ?_,
    fun j nid nw s2 => insert_no_retry j nid nw s2⟩
  · rw [List.countP_append, hfresh]
    simp [List.countP_cons, hmatchA]
  · apply uniq_append_fresh s0
      (⟨nA, jA.reporterIns, jA.type, jA.payload, nowA, nowA⟩ : Record) ?_ hU
    intro t d hm
    obtain ⟨h1, h2⟩ := (rowMatch_iff t d _).1 hm
    have ht2 : t = jA.type := h1.symm
    have hd2 : d = jA.date := by
      rw [hwfA] at h2
      injection h2 with h3
      exact h3.symm
    rw [ht2, hd2]
    exact hfresh

/-- Claim C1 (witness): the race at a concrete fresh key, with the loser
    answered by the 409 conflict and one row committed. -/
theorem claimC1_witness :
    ustep 2 0 (UThread.toInsert ⟨.base, some "anonymous", "anonymous", "qcs", "2024-01-01",
        ⟨some "2024-01-01", none, "B"⟩⟩)
      ([] ++ [⟨1, "anonymous", "qcs", ⟨some "2024-01-01", none, "A"⟩, 0, 0⟩]) =
      (.done .conflict, [] ++ [⟨1, "anonymous", "qcs", ⟨some "2024-01-01", none, "A"⟩, 0, 0⟩]) ∧
    ([] ++ [(⟨1, "anonymous", "qcs", ⟨some "2024-01-01", none, "A"⟩, 0, 0⟩ : Record)]).countP
      (rowMatch "qcs" "2024-01-01") = 1 := by
  have h := claimC1_upsert_race
    ⟨none, some "qcs", some ⟨some "2024-01-01", none, "A"⟩, none⟩
    ⟨none, some "qcs", some ⟨some "2024-01-01", none, "B"⟩, none⟩
    ⟨.base, some "anonymous", "anonymous", "qcs", "2024-01-01", ⟨some "2024-01-01", none, "A"⟩⟩
    ⟨.base, some "anonymous", "anonymous", "qcs", "2024-01-01", ⟨some "2024-01-01", none, "B"⟩⟩
    rfl rfl rfl rfl 1 2 0 0 [] (by unfold Uniq; intro t d; simp) (by decide)
  exact ⟨h.2.2.2.1, h.2.2.2.2.2.1⟩

/-- Claim C7: for every list request the effective row limit is the
    caller limit clamped into [1, 500] with default 200 when absent or
    unparsable (limit=10000 gives 500), the response never has more rows
    than that limit, results are ordered by creation time descending,
    and the lite projection carries exactly the scalar fields id,
    reporter, type, created_at, updated_at, reportDate, invoiceNo
    without the payload. -/
theorem claimC7_list_clamp_order_lite :
    clampInt (some 10000) 200 1 500 = 500 ∧
    clampInt none 200 1 500 = 200 ∧
    (∀ v : Option ℤ, 1 ≤ clampInt v 200 1 500 ∧ clampInt v 200 1 500 ≤ 500) ∧
    (∀ q s, (listReports q s).size ≤ (clampInt q.limit 200 1 500).toNat ∧
      (listReports q s).size ≤ 500) ∧
    (∀ qt ql s, List.Sorted createdDesc (listBase qt ql s)) ∧
    (∀ r, liteProj r = ⟨r.id, r.reporter, r.type, r.createdAt, r.updatedAt,
        r.payload.reportDate, r.payload.invoiceNo⟩) := by
  have hub : ∀ v : Option ℤ, clampInt v 200 1 500 ≤ 500 := by
    intro v
    simp only [clampInt]
    exact max_le (by norm_num) (min_le_left _ _)
  have hsize : ∀ q s, (listReports q s).size = (listBase q.type q.limit s).length := by
    intro q s
    unfold listReports
    by_cases h : isLiteFlag q.lite <;> simp [h, ListResp.size]
  refine ⟨by decide, by decide, ?_, ?_, ?_, fun r => rfl⟩
  · intro v
    refine ⟨?_, hub v⟩
    simp only [clampInt]
    exact le_max_left 1 _
  · intro q s
    have hlen : (listBase q.type q.limit s).length ≤ (clampInt q.limit 200 1 500).toNat := by
      unfold listBase
      exact List.length_take_le _ _
    refine ⟨by rw [hsize q s]; exact hlen, ?_⟩
    rw [hsize q s]
    refine le_trans hlen ?_
    have := Int.toNat_le_toNat (hub q.limit)
    simpa using this
  · intro qt ql s
    unfold listBase
    exact List.Pairwise.sublist ((List.take_sublist _ _).trans (List.filter_sublist _))
      (List.sorted_insertionSort createdDesc s)

/-- Claim C6 (counterexample): a uniqueness violation on the fallback
    insert of PUT /api/reports/:type is answered with a 500 carrying the
    raw store error message, not with the 409 conflict mapping. The
    scenario is reachable: the typed job comes from the route's own
    validation, its UPDATE misses on the empty store, and its INSERT
    then races with an already-committed row for the same key. -/
theorem claimC6_counterexample :
    putReportsTypedStart ⟨ "qcs", none, none, some ⟨some "2024-01-01", none, "B"⟩, ⟨none, none, ""⟩⟩ =
      .ok ⟨.typed, some "anonymous", "anonymous", "qcs", "2024-01-01",
        ⟨some "2024-01-01", none, "B"⟩⟩ ∧
    (ustep 2 0 (UThread.toUpdate ⟨.typed, some "anonymous", "anonymous", "qcs", "2024-01-01",
        ⟨some "2024-01-01", none, "B"⟩⟩) []).1 =
      .toInsert ⟨.typed, some "anonymous", "anonymous", "qcs", "2024-01-01",
        ⟨some "2024-01-01", none, "B"⟩⟩ ∧
    (ustep 2 0 (UThread.toInsert ⟨.typed, some "anonymous", "anonymous", "qcs", "2024-01-01",
        ⟨some "2024-01-01", none, "B"⟩⟩)
        [⟨1, "anonymous", "qcs", ⟨some "2024-01-01", none, "A"⟩, 0, 0⟩]).1 =
      .done (.internal "duplicate key value violates unique constraint ux_reports_type_reportdate") ∧
    (UpsertResp.internal
        "duplicate key value violates unique constraint ux_reports_type_reportdate").status = 500 ∧
    (UpsertResp.internal
        "duplicate key value violates unique constraint ux_reports_type_reportdate") ≠
      UpsertResp.conflict := by
  refine ⟨rfl, by decide, by decide, rfl, by decide⟩

/-- Claim C6 (amended): the catch blocks of the upsert routes always
    produce a response (no store exception escapes as a crash), and the
    base PUT /api/reports route maps a 23505 uniqueness violation to the
    409 conflict; but the generic PUT /api/reports/:type route maps
    every store error, 23505 included, to a 500 response carrying the
    raw message. -/
theorem claimC6_amended :
    (∀ m : String, catchMap .base ⟨ "23505", m⟩ = .conflict) ∧
    UpsertResp.conflict.status = 409 ∧
    (∀ e : DbErr, catchMap .typed e = .internal e.message ∧
      (UpsertResp.internal e.message).status = 500) ∧
    (∀ j nextId now s, ∃ resp s2,
      ustep nextId now (UThread.toInsert j) s = (.done resp, s2)) := by
  refine ⟨fun m => by simp [catchMap], rfl, fun e => ⟨rfl, rfl⟩, ?_⟩
  intro j nextId now s
  rcases h : sqlInsert j.reporterIns j.type j.payload nextId now s with e | ⟨s2, r⟩
  · exact ⟨catchMap j.route e, s, by simp [ustep, h]⟩
  · exact ⟨.created r, s2, by simp [ustep, h]⟩

/-- Claim C8 (counterexample): PUT /api/reports does not default the
    natural key to the query reportDate: with a payload lacking
    reportDate and the query carrying one, the call is rejected 400
    rather than falling back; and PUT /api/reports/:type does not reject
    a non-object payload: it falls back to the body's own fields and
    succeeds when the query supplies the date. -/
theorem claimC8_counterexample :
    putReports ⟨none, some "qcs", some ⟨none, none, "x"⟩, some "2024-01-01"⟩ 1 0 [] =
      (.badReq "payload.reportDate required", []) ∧
    (putReportsTyped ⟨ "qcs", some "2024-01-01", none, none, ⟨none, none, "body"⟩⟩ 1 0 []).1 =
      .created ⟨1, "anonymous", "qcs", ⟨some "2024-01-01", none, "body"⟩, 0, 0⟩ := by
  refine ⟨by decide, by decide⟩

/-- Claim C8 (amended): the body-payload route PUT /api/reports fails 400
    and leaves the store unchanged when the type is empty, the payload is
    not an object, or payload.reportDate is empty, taking the natural key
    from the payload only; the path-typed route PUT /api/reports/:type
    derives the payload from the body when no payload object is given and
    takes the natural key from the payload, defaulting to the query
    value, failing 400 with the store unchanged only when both are
    empty. -/
theorem claimC8_amended :
    (∀ b n m s, normText b.type = "" →
      putReports b n m s = (.badReq "type required", s)) ∧
    (∀ b n m s, normText b.type ≠ "" → b.payload = none →
      putReports b n m s = (.badReq "payload object required", s)) ∧
    (∀ b p0 n m s, normText b.type ≠ "" → b.payload = some p0 →
      normText (some (jsOrO p0.reportDate "")) = "" →
      putReports b n m s = (.badReq "payload.reportDate required", s)) ∧
    (∀ b j, putReportsTypedStart b = .ok j →
      j.date = normText (some (jsOrO (b.payload.getD b.residual).reportDate
        (jsOrO b.queryReportDate ""))) ∧
      j.payload = { b.payload.getD b.residual with reportDate := some j.date }) ∧
    (∀ b n m s, normText (some b.typeParam) ≠ "" →
      normText (some (jsOrO (b.payload.getD b.residual).reportDate
        (jsOrO b.queryReportDate ""))) = "" →
      putReportsTyped b n m s =
        (.badReq "reportDate required (payload.reportDate or ?reportDate=)", s)) := by
  refine ⟨?_, ?_, ?_, ?_, ?_⟩
  · intro b n m s h
    simp [putReports, putReportsStart, h]
  · intro b n m s h1 h2
    simp [putReports, putReportsStart, h1, h2]
  · intro b p0 n m s h1 h2 h3
    simp [putReports, putReportsStart, h1, h2, h3]
  · intro b j h
    unfold putReportsTypedStart at h
    dsimp only at h
    split at h
    · exact absurd h (by simp)
    · split at h
      · exact absurd h (by simp)
      · rw [Except.ok.injEq] at h
        subst h
        exact ⟨rfl, rfl⟩
  · intro b n m s h1 h2
    simp [putReportsTyped, putReportsTypedStart, h1, h2]

/-- Claim C8 (witness for the amended claim): the three base-route
    rejections, the typed-route query default, and the typed-route
    rejection, at concrete inputs. -/
theorem claimC8_amended_witness :
    putReports ⟨none, some " ", some ⟨some "2024-01-01", none, "x"⟩, none⟩ 1 0 [] =
      (.badReq "type required", []) ∧
    putReports ⟨none, some "qcs", none, none⟩ 1 0 [] =
      (.badReq "payload object required", []) ∧
    putReports ⟨none, some "qcs", some ⟨some " ", none, "x"⟩, none⟩ 1 0 [] =
      (.badReq "payload.reportDate required", []) ∧
    (∀ j, putReportsTypedStart ⟨ "qcs", some "2024-01-01", none, none, ⟨none, none, "b"⟩⟩ =
        .ok j → j.date = "2024-01-01") ∧
    putReportsTyped ⟨ "qcs", none, none, none, ⟨none, none, "b"⟩⟩ 1 0 [] =
      (.badReq "reportDate required (payload.reportDate or ?reportDate=)", []) := by
  refine ⟨claimC8_amended.1 _ 1 0 [] (by decide),
    claimC8_amended.2.1 _ 1 0 [] (by decide) rfl,
    claimC8_amended.2.2.1 _ _ 1 0 [] (by decide) rfl (by decide),
    ?_, claimC8_amended.2.2.2.2 _ 1 0 [] (by decide) (by decide)⟩
  intro j hj
  have h := (claimC8_amended.2.2.2.1 _ j hj).1
  rw [h]
  decide

/-! Training-session helper lemmas. -/

/-- When every guard of the submit handler passes, the call is exactly
    its write phase. -/
theorem submit_to_write (now today : String) (req : SubmitReq) (reportId : ℕ)
    (payload : TrainingPayload)
    (htok : normText (some req.token) ≠ "")
    (hans : req.answers.getD [] ≠ [])
    (hkey : makeParticipantKeyFromBody req ≠ "")
    (hname : normText (req.participant.bind ReqParticipant.name) ≠ "")
    (heid : normText (req.participant.bind ReqParticipant.employeeId) ≠ "")
    (hquiz : (extractQuiz payload).questions ≠ [])
    (hnew : getSubmission payload (normText (some req.token))
      (makeParticipantKeyFromBody req) = none)
    (hlen : (req.answers.getD []).length = (extractQuiz payload).questions.length)
    (hints : (req.answers.getD []).findIdx? (fun a => !a.isInt) = none) :
    submit now today req (some (reportId, payload)) =
      submitWrite now today (normText (some req.token)) (makeParticipantKeyFromBody req)
        (normText (req.participant.bind ReqParticipant.name))
        (normText (req.participant.bind ReqParticipant.designation))
        (normText (req.participant.bind ReqParticipant.employeeId))
        ((req.answers.getD []).map JsAns.toInt) reportId payload := by
  unfold submit
  dsimp only
  rw [if_neg htok, if_neg hans, if_neg hkey, if_neg hname, if_neg heid, if_neg hquiz, hnew]
  dsimp only
  rw [if_neg (fun hcon => hcon hlen), hints]

/-- A submit call that reaches the ledger check against an existing entry
    answers the prior grade and leaves the row untouched. -/
theorem submit_already (now today : String) (req : SubmitReq) (reportId : ℕ)
    (p : TrainingPayload)
    (htok : normText (some req.token) ≠ "")
    (hans : req.answers.getD [] ≠ [])
    (hkey : makeParticipantKeyFromBody req ≠ "")
    (hname : normText (req.participant.bind ReqParticipant.name) ≠ "")
    (heid : normText (req.participant.bind ReqParticipant.employeeId) ≠ "")
    (hquiz : (extractQuiz p).questions ≠ [])
    (e : Submission)
    (hex : getSubmission p (normText (some req.token))
      (makeParticipantKeyFromBody req) = some e) :
    submit now today req (some (reportId, p)) =
      (.already (some e.score) (some e.result) (some e.submittedAt), some (reportId, p)) := by
  unfold submit
  dsimp only
  rw [if_neg htok, if_neg hans, if_neg hkey, if_neg hname, if_neg heid, if_neg hquiz, hex]

/-- Looking the submission key up right after the spread insert finds the
    fresh entry. -/
theorem lookupSub_setSub (m : List (String × Submission)) (k : String) (v : Submission) :
    lookupSub (setSub m k v) k = some v := by
  unfold lookupSub setSub
  rw [List.find?_append]
  have h1 : (m.filter fun kv => !(kv.1 == k)).find? (fun kv => kv.1 == k) = none := by
    rw [List.find?_eq_none]
    intro x hx
    have h2 := (List.mem_filter.1 hx).2
    simp at h2
    simp [h2]
  rw [h1]
  simp

/-- The stored payload of a successful submit keeps its quiz unchanged. -/
theorem extractQuiz_subNewPayload (now today token pk pn pd pe : String) (ints : List ℤ)
    (p : TrainingPayload) :
    extractQuiz (subNewPayload now today token pk pn pd pe ints p) = extractQuiz p := by
  cases p
  rfl

/-- The stored payload of a successful submit holds the fresh ledger
    entry under its submission key. -/
theorem getSubmission_subNewPayload (now today token pk pn pd pe : String) (ints : List ℤ)
    (p : TrainingPayload) :
    getSubmission (subNewPayload now today token pk pn pd pe ints p) token pk =
      some ⟨token, pk, ⟨pn, pd, pe⟩, now, (extractQuiz p).passMark,
        subScoreOf p ints, subResultOf p ints, ints⟩ := by
  cases p
  unfold getSubmission subNewPayload
  dsimp only
  rw [lookupSub_setSub]

/-- The stored payload of a successful submit carries the new roster. -/
theorem subNewPayload_participants (now today token pk pn pd pe : String) (ints : List ℤ)
    (p : TrainingPayload) :
    (subNewPayload now today token pk pn pd pe ints p).participants =
      some (subNewRoster today pn pd pe (subScoreOf p ints) (subResultOf p ints)
        (mkSnapshot (extractQuiz p) now (extractQuiz p).passMark (subScoreOf p ints)
          (subResultOf p ints) ints)
        (p.participants.getD [])) := by
  cases p
  rfl

/-- Claim C3: the first submit for a participantKey succeeds with the
    computed score; any later well-formed submit with the same token and
    participantKey against the stored session fails 409 ALREADY_SUBMITTED,
    reports the first call's score, result and submission time unchanged,
    and leaves the stored row unmodified. -/
theorem claimC3_submit_once (now1 today1 now2 today2 : String) (req1 req2 : SubmitReq)
    (reportId : ℕ) (payload : TrainingPayload)
    (htok1 : normText (some req1.token) ≠ "")
    (hans1 : req1.answers.getD [] ≠ [])
    (hkey1 : makeParticipantKeyFromBody req1 ≠ "")
    (hname1 : normText (req1.participant.bind ReqParticipant.name) ≠ "")
    (heid1 : normText (req1.participant.bind ReqParticipant.employeeId) ≠ "")
    (hquiz : (extractQuiz payload).questions ≠ [])
    (hnew : getSubmission payload (normText (some req1.token))
      (makeParticipantKeyFromBody req1) = none)
    (hlen1 : (req1.answers.getD []).length = (extractQuiz payload).questions.length)
    (hints1 : (req1.answers.getD []).findIdx? (fun a => !a.isInt) = none)
    (htok2 : normText (some req2.token) = normText (some req1.token))
    (hkey2 : makeParticipantKeyFromBody req2 = makeParticipantKeyFromBody req1)
    (hans2 : req2.answers.getD [] ≠ [])
    (hname2 : normText (req2.participant.bind ReqParticipant.name) ≠ "")
    (heid2 : normText (req2.participant.bind ReqParticipant.employeeId) ≠ "") :
    (submit now1 today1 req1 (some (reportId, payload))).1 =
      .success reportId (makeParticipantKeyFromBody req1)
        (subScoreOf payload (subIntsOf req1)) (subResultOf payload (subIntsOf req1))
        (extractQuiz payload).passMark now1 ∧
    submit now2 today2 req2 (submit now1 today1 req1 (some (reportId, payload))).2 =
      (.already (some (subScoreOf payload (subIntsOf req1)))
        (some (subResultOf payload (subIntsOf req1))) (some now1),
       (submit now1 today1 req1 (some (reportId, payload))).2) := by
  have h1 := submit_to_write now1 today1 req1 reportId payload htok1 hans1 hkey1 hname1
    heid1 hquiz hnew hlen1 hints1
  refine ⟨by rw [h1]; rfl, ?_⟩
  rw [h1]
  show submit now2 today2 req2
      (some (reportId, subNewPayload now1 today1 (normText (some req1.token))
        (makeParticipantKeyFromBody req1)
        (normText (req1.participant.bind ReqParticipant.name))
        (normText (req1.participant.bind ReqParticipant.designation))
        (normText (req1.participant.bind ReqParticipant.employeeId))
        (subIntsOf req1) payload)) = _
  rw [submit_already now2 today2 req2 reportId _
    (by rw [htok2]; exact htok1) hans2 (by rw [hkey2]; exact hkey1) hname2 heid2
    (by rw [extractQuiz_subNewPayload]; exact hquiz)
    ⟨normText (some req1.token), makeParticipantKeyFromBody req1,
      ⟨normText (req1.participant.bind ReqParticipant.name),
       normText (req1.participant.bind ReqParticipant.designation),
       normText (req1.participant.bind ReqParticipant.employeeId)⟩, now1,
      (extractQuiz payload).passMark, subScoreOf payload (subIntsOf req1),
      subResultOf payload (subIntsOf req1), subIntsOf req1⟩
    (by rw [htok2, hkey2]; exact getSubmission_subNewPayload now1 today1 _ _ _ _ _ _ payload)]
  rfl

/-- Claim C3 (witness): the concrete session graded once, then rejected
    with the first grade on the second call. -/
theorem claimC3_witness :
    (submit "T1" "D1" fxReq (some (5, fxPayload (some (some 75))))).1 =
      .success 5 "eid:E1" 75 "PASS" 75 "T1" ∧
    submit "T2" "D2" fxReq (submit "T1" "D1" fxReq (some (5, fxPayload (some (some 75))))).2 =
      (.already (some 75) (some "PASS") (some "T1"),
       (submit "T1" "D1" fxReq (some (5, fxPayload (some (some 75))))).2) := by
  have h := claimC3_submit_once "T1" "D1" "T2" "D2" fxReq fxReq 5 (fxPayload (some (some 75)))
    (by decide) (by decide) (by decide) (by decide) (by decide) (by decide) (by decide)
    (by decide) (by decide) rfl rfl (by decide) (by decide) (by decide)
  exact ⟨h.1, h.2⟩

/-- The Math.round step of the scoring path is the exact nearest
    integer, halves toward positive infinity, of the rational value of
    the double it receives. -/
theorem roundM_eq (m : ℕ) (e : ℤ) :
    (roundM m e : ℤ) = round ((m : ℚ) * (2 : ℚ) ^ e) := by
  unfold roundM
  by_cases he : 0 ≤ e
  · rw [if_pos he]
    obtain ⟨n, rfl⟩ := Int.eq_ofNat_of_zero_le he
    rw [Int.toNat_natCast]
    have h2 : (m : ℚ) * (2 : ℚ) ^ (n : ℤ) = ((m * 2 ^ n : ℕ) : ℚ) := by
      rw [zpow_natCast]
      push_cast
      ring
    rw [h2, round_natCast]
  · rw [if_neg he]
    rw [round_eq]
    set k := (-e).toNat with hkdef
    have hek : e = -(k : ℤ) := by omega
    have h2 : (m : ℚ) * (2 : ℚ) ^ e + 1 / 2 =
        (((2 * m + 2 ^ k : ℕ) : ℤ) : ℚ) / ((2 ^ (k + 1) : ℕ) : ℚ) := by
      rw [hek, zpow_neg, zpow_natCast]
      have hp : ((2 : ℚ) ^ k) ≠ 0 := by positivity
      field_simp
      ring
    rw [h2, Rat.floor_intCast_div_natCast]
    exact Int.natCast_div _ _

/-- Claim C4 (counterexample): with 23 of 40 questions correct the
    binary64 evaluation of (23/40)*100 lands just below 57.5, so the
    handler grades the session 57, while the claimed exact formula
    round(100 x 23 / 40) rounds the half up to 58. -/
theorem claimC4_counterexample :
    (submit "T1" "D1" fx40Req (some (7, fx40Payload))).1 =
      .success 7 "eid:E1" 57 "PASS" 50 "T1" ∧
    round ((100 * 23 : ℚ) / 40) = 58 ∧
    (57 : ℤ) ≠ 58 := by
  refine ⟨by decide, ?_, by decide⟩
  have h : (100 * 23 : ℚ) / 40 + 1 / 2 = ((58 : ℤ) : ℚ) := by norm_num
  rw [round_eq, h, Int.floor_intCast]

/-- Claim C4 (amended): the submit score is Math.round of the binary64
    evaluation of (correct/total)*100, where correct counts positions
    whose answer equals the recorded correct index and the final
    Math.round is the exact nearest integer (halves up) of the double's
    value; the result is PASS exactly when the score reaches the
    passMark; on the concrete quiz with correct indices 0,1,2,3 and
    answers 0,1,9,3 the score is 75 with PASS exactly when passMark is
    at most 75; but the exact formula round(100 x correct / total) does
    not hold universally: at 23 of 40 the code scores 57, not 58. -/
theorem claimC4_amended (now today : String) (req : SubmitReq) (reportId : ℕ)
    (p : TrainingPayload)
    (htok : normText (some req.token) ≠ "")
    (hans : req.answers.getD [] ≠ [])
    (hkey : makeParticipantKeyFromBody req ≠ "")
    (hname : normText (req.participant.bind ReqParticipant.name) ≠ "")
    (heid : normText (req.participant.bind ReqParticipant.employeeId) ≠ "")
    (hquiz : (extractQuiz p).questions ≠ [])
    (hnew : getSubmission p (normText (some req.token))
      (makeParticipantKeyFromBody req) = none)
    (hlen : (req.answers.getD []).length = (extractQuiz p).questions.length)
    (hints : (req.answers.getD []).findIdx? (fun a => !a.isInt) = none) :
    (∀ m : ℕ, ∀ e : ℤ, (roundM m e : ℤ) = round ((m : ℚ) * (2 : ℚ) ^ e)) ∧
    (submit now today req (some (reportId, p))).1 =
      .success reportId (makeParticipantKeyFromBody req) (subScoreOf p (subIntsOf req))
        (subResultOf p (subIntsOf req)) (extractQuiz p).passMark now ∧
    (subResultOf p (subIntsOf req) = "PASS" ↔
      (extractQuiz p).passMark ≤ (subScoreOf p (subIntsOf req) : ℚ)) ∧
    correctCount fxQuestions [0, 1, 9, 3] = 3 ∧
    jsScore 3 4 = 75 ∧
    (∀ pm : ℚ, subResultOf (fxPayload (some (some pm))) (subIntsOf fxReq) = "PASS" ↔
      pm ≤ 75) ∧
    jsScore 23 40 = 57 := by
  have hres : ∀ (p2 : TrainingPayload) ints, subResultOf p2 ints = "PASS" ↔
      (extractQuiz p2).passMark ≤ (subScoreOf p2 ints : ℚ) := by
    intro p2 ints
    unfold subResultOf
    by_cases h : (extractQuiz p2).passMark ≤ (subScoreOf p2 ints : ℚ)
    · rw [if_pos h]
      simp [h]
    · rw [if_neg h]
      constructor
      · intro hc
        exact absurd hc (by decide)
      · intro hc
        exact absurd hc h
  refine ⟨roundM_eq, ?_, hres p (subIntsOf req), by decide, by decide, ?_, by decide⟩
  · rw [submit_to_write now today req reportId p htok hans hkey hname heid hquiz hnew
      hlen hints]
    rfl
  · intro pm
    have h1 := hres (fxPayload (some (some pm))) (subIntsOf fxReq)
    have h2 : (extractQuiz (fxPayload (some (some pm)))).passMark = pm := rfl
    have hq : (extractQuiz (fxPayload (some (some pm)))).questions = fxQuestions := rfl
    have h3 : subScoreOf (fxPayload (some (some pm))) (subIntsOf fxReq) = 75 := by
      unfold subScoreOf
      rw [hq]
      decide
    rw [h1, h2, h3]
    norm_num

/-- Claim C4 (amended, witness): the concrete quiz graded through the
    handler, with the Math.round bridge instantiated at 57 x 2 ^ 0. -/
theorem claimC4_amended_witness :
    (roundM 57 0 : ℤ) = round ((57 : ℚ) * (2 : ℚ) ^ (0 : ℤ)) ∧
    (submit "T1" "D1" fxReq (some (5, fxPayload (some (some 75))))).1 =
      .success 5 "eid:E1" 75 "PASS" 75 "T1" ∧
    correctCount fxQuestions [0, 1, 9, 3] = 3 ∧
    jsScore 3 4 = 75 ∧
    (subResultOf (fxPayload (some (some 80))) (subIntsOf fxReq) = "PASS" ↔ (80 : ℚ) ≤ 75) ∧
    jsScore 23 40 = 57 := by
  have h := claimC4_amended "T1" "D1" fxReq 5 (fxPayload (some (some 75)))
    (by decide) (by decide) (by decide) (by decide) (by decide) (by decide) (by decide)
    (by decide) (by decide)
  have h80 := claimC4_amended "T1" "D1" fxReq 5 (fxPayload (some (some 80)))
    (by decide) (by decide) (by decide) (by decide) (by decide) (by decide) (by decide)
    (by decide) (by decide)
  exact ⟨h.1 57 0, h.2.1, h.2.2.2.1, h.2.2.2.2.1, h80.2.2.2.2.2.1 80, h.2.2.2.2.2.2⟩

/-- Claim C5 (counterexample): a submit whose answers array is empty has
    a length different from the 4-question count, yet fails with the
    generic answers-required error, not with a length-mismatch response
    naming the expected and got counts. -/
theorem claimC5_counterexample :
    submit "T1" "D1" ⟨ "tok", none, some ⟨some "Ali", some "QA", some "E1"⟩, some []⟩
        (some (1, fxPayload (some (some 75)))) =
      (.err400 "answers required", some (1, fxPayload (some (some 75)))) ∧
    SubmitResp.err400 "answers required" ≠ .mismatch 4 0 ∧
    (SubmitResp.err400 "answers required").status = 400 := by
  refine ⟨by decide, by decide, rfl⟩

/-- Claim C5 (amended): among submit calls that reach validation (found
    session with a non-empty quiz, valid participant identity, no prior
    submission), a non-empty answers array of the wrong length fails
    with ANSWERS_LENGTH_MISMATCH naming the expected and got counts; an
    empty answers array is rejected earlier with a generic
    answers-required error carrying no counts; when the length matches,
    a non-integer answer fails naming the first offending index; in
    every case the stored row is unchanged. -/
theorem claimC5_amended (now today : String) (req : SubmitReq) (reportId : ℕ)
    (p : TrainingPayload)
    (htok : normText (some req.token) ≠ "")
    (hkey : makeParticipantKeyFromBody req ≠ "")
    (hname : normText (req.participant.bind ReqParticipant.name) ≠ "")
    (heid : normText (req.participant.bind ReqParticipant.employeeId) ≠ "")
    (hquiz : (extractQuiz p).questions ≠ [])
    (hnew : getSubmission p (normText (some req.token))
      (makeParticipantKeyFromBody req) = none) :
    (req.answers.getD [] = [] →
      submit now today req (some (reportId, p)) =
        (.err400 "answers required", some (reportId, p))) ∧
    (req.answers.getD [] ≠ [] →
      (req.answers.getD []).length ≠ (extractQuiz p).questions.length →
      submit now today req (some (reportId, p)) =
        (.mismatch (extractQuiz p).questions.length (req.answers.getD []).length,
         some (reportId, p))) ∧
    (∀ i, req.answers.getD [] ≠ [] →
      (req.answers.getD []).length = (extractQuiz p).questions.length →
      (req.answers.getD []).findIdx? (fun a => !a.isInt) = some i →
      submit now today req (some (reportId, p)) =
        (.err400 ("INVALID_ANSWER_AT_" ++ toString i), some (reportId, p))) ∧
    (∀ (l : List JsAns) i, l.findIdx? (fun a => !a.isInt) = some i →
      ∃ h : i < l.length, (l.get ⟨i, h⟩).isInt = false ∧
        ∀ k, ∀ hk : k < i, (l.get ⟨k, Nat.lt_trans hk h⟩).isInt = true) := by
  refine ⟨?_, ?_, ?_, ?_⟩
  · intro h
    unfold submit
    dsimp only
    rw [if_neg htok, if_pos h]
  · intro hans hne
    unfold submit
    dsimp only
    rw [if_neg htok, if_neg hans, if_neg hkey, if_neg hname, if_neg heid, if_neg hquiz, hnew]
    dsimp only
    rw [if_pos hne]
  · intro i hans hlen hfi
    unfold submit
    dsimp only
    rw [if_neg htok, if_neg hans, if_neg hkey, if_neg hname, if_neg heid, if_neg hquiz, hnew]
    dsimp only
    rw [if_neg (fun hc => hc hlen), hfi]
  · intro l i hfi
    obtain ⟨hlt, hidx⟩ := List.findIdx?_eq_some_iff_findIdx_eq.1 hfi
    subst hidx
    refine ⟨hlt, ?_, ?_⟩
    · have h3 := @List.findIdx_getElem _ (fun a => !a.isInt) l hlt
      rw [List.get_eq_getElem]
      simpa using h3
    · intro k hk
      have h3 := @List.not_of_lt_findIdx _ (fun a => !a.isInt) l k hk
      rw [List.get_eq_getElem]
      simpa using h3

/-- Claim C5 (witness for the amended claim): the three validation
    outcomes on the concrete four-question session. -/
theorem claimC5_amended_witness :
    submit "T1" "D1" ⟨ "tok", none, some ⟨some "Omar", some "QA", some "E9"⟩, some []⟩
        (some (1, fxPayload (some (some 75)))) =
      (.err400 "answers required", some (1, fxPayload (some (some 75)))) ∧
    submit "T1" "D1" ⟨ "tok", none, some ⟨some "Omar", some "QA", some "E9"⟩, some [.int 0]⟩
        (some (1, fxPayload (some (some 75)))) =
      (.mismatch 4 1, some (1, fxPayload (some (some 75)))) ∧
    submit "T1" "D1" ⟨ "tok", none, some ⟨some "Omar", some "QA", some "E9"⟩,
        some [.int 0, .other "f", .other "g", .int 3]⟩
        (some (1, fxPayload (some (some 75)))) =
      (.err400 "INVALID_ANSWER_AT_1", some (1, fxPayload (some (some 75)))) := by
  refine ⟨?_, ?_, ?_⟩
  · exact (claimC5_amended "T1" "D1"
      ⟨ "tok", none, some ⟨some "Omar", some "QA", some "E9"⟩, some []⟩ 1
      (fxPayload (some (some 75))) (by decide) (by decide) (by decide) (by decide)
      (by decide) (by decide)).1 rfl
  · exact (claimC5_amended "T1" "D1"
      ⟨ "tok", none, some ⟨some "Omar", some "QA", some "E9"⟩, some [.int 0]⟩ 1
      (fxPayload (some (some 75))) (by decide) (by decide) (by decide) (by decide)
      (by decide) (by decide)).2.1 (by decide) (by decide)
  · exact (claimC5_amended "T1" "D1"
      ⟨ "tok", none, some ⟨some "Omar", some "QA", some "E9"⟩,
        some [.int 0, .other "f", .other "g", .int 3]⟩ 1
      (fxPayload (some (some 75))) (by decide) (by decide) (by decide) (by decide)
      (by decide) (by decide)).2.2.1 1 (by decide) (by decide) (by decide)

/-- Claim C9: when the quiz passMark field is absent everywhere or not a
    finite number, extractQuiz resolves it to 80, so the by-token read
    reports passMark 80 and a submission passes exactly when its score
    reaches 80. -/
theorem claimC9_passMark_default (p : TrainingPayload)
    (hpm : pmChain p = none ∨ pmChain p = some none) :
    (extractQuiz p).passMark = 80 ∧
    (∀ q, byTokenQuiz p = some q → q.passMark = 80) ∧
    (∀ ints, subResultOf p ints =
      if (subScoreOf p ints : ℚ) ≥ 80 then "PASS" else "FAIL") := by
  have h80 : (extractQuiz p).passMark = 80 := by
    unfold extractQuiz
    dsimp only
    rcases hpm with h | h <;> simp [h]
  refine ⟨h80, ?_, ?_⟩
  · intro q hq
    unfold byTokenQuiz at hq
    dsimp only at hq
    split at hq
    · exact absurd hq (by simp)
    · rw [Option.some.injEq] at hq
      rw [← hq, h80]
  · intro ints
    unfold subResultOf
    rw [h80]

/-- Claim C9 (witness): the concrete session with no passMark field is
    read and graded against the default 80. -/
theorem claimC9_witness :
    (extractQuiz (fxPayload none)).passMark = 80 ∧
    (∀ q, byTokenQuiz (fxPayload none) = some q → q.passMark = 80) := by
  have h := claimC9_passMark_default (fxPayload none) (by left; rfl)
  exact ⟨h.1, h.2.1⟩

/-- Claim C10: the submit route rejects with a 400 every request whose
    participant.employeeId normalizes to empty; in every accepted submit
    the roster hit test therefore compares only the normalized
    employeeId (the case-insensitive name fallback is unreachable), a
    roster entry with an empty or different employeeId is never
    rewritten, and when no entry matches a fresh participant with the
    next sequential slNo is appended. -/
theorem claimC10_roster_eid_only (now today : String) (req : SubmitReq) (reportId : ℕ)
    (p : TrainingPayload) (tok pk pn pd pe : String) (ps : List Participant)
    (htokdef : tok = normText (some req.token))
    (hpkdef : pk = makeParticipantKeyFromBody req)
    (hpndef : pn = normText (req.participant.bind ReqParticipant.name))
    (hpddef : pd = normText (req.participant.bind ReqParticipant.designation))
    (hpedef : pe = normText (req.participant.bind ReqParticipant.employeeId))
    (hpsdef : ps = p.participants.getD [])
    (htok : tok ≠ "") (hans : req.answers.getD [] ≠ []) (hkey : pk ≠ "")
    (hname : pn ≠ "") (heid : pe ≠ "")
    (hquiz : (extractQuiz p).questions ≠ [])
    (hnew : getSubmission p tok pk = none)
    (hlen : (req.answers.getD []).length = (extractQuiz p).questions.length)
    (hints : (req.answers.getD []).findIdx? (fun a => !a.isInt) = none) :
    (∀ nw td r2 row, normText (r2.participant.bind ReqParticipant.employeeId) = "" →
      (submit nw td r2 row).1.status = 400) ∧
    (∀ pp, rosterHit (normKey pe) (normKey pn) pp =
      (normKey pp.employeeId != "" && normKey pp.employeeId == normKey pe)) ∧
    (subNewRoster today pn pd pe (subScoreOf p (subIntsOf req)) (subResultOf p (subIntsOf req))
        (mkSnapshot (extractQuiz p) now (extractQuiz p).passMark (subScoreOf p (subIntsOf req))
          (subResultOf p (subIntsOf req)) (subIntsOf req)) ps =
      (ps.map fun pp =>
        if normKey pp.employeeId != "" && normKey pp.employeeId == normKey pe then
          rosterUpdate pn pd pe (subScoreOf p (subIntsOf req)) (subResultOf p (subIntsOf req))
            today (mkSnapshot (extractQuiz p) now (extractQuiz p).passMark
              (subScoreOf p (subIntsOf req)) (subResultOf p (subIntsOf req)) (subIntsOf req)) pp
        else pp) ++
      (if ps.any (fun pp => normKey pp.employeeId != "" && normKey pp.employeeId == normKey pe)
        then []
        else [newRosterEntry (ps.length + 1) pn pd pe (subScoreOf p (subIntsOf req))
          (subResultOf p (subIntsOf req)) today
          (mkSnapshot (extractQuiz p) now (extractQuiz p).passMark
            (subScoreOf p (subIntsOf req)) (subResultOf p (subIntsOf req)) (subIntsOf req))])) ∧
    (∀ pp ∈ ps, normKey pp.employeeId = "" ∨ normKey pp.employeeId ≠ normKey pe →
      (if normKey pp.employeeId != "" && normKey pp.employeeId == normKey pe then
        rosterUpdate pn pd pe (subScoreOf p (subIntsOf req)) (subResultOf p (subIntsOf req))
          today (mkSnapshot (extractQuiz p) now (extractQuiz p).passMark
            (subScoreOf p (subIntsOf req)) (subResultOf p (subIntsOf req)) (subIntsOf req)) pp
       else pp) = pp) ∧
    (submit now today req (some (reportId, p))).2 =
      some (reportId, subNewPayload now today tok pk pn pd pe (subIntsOf req) p) ∧
    (subNewPayload now today tok pk pn pd pe (subIntsOf req) p).participants =
      some (subNewRoster today pn pd pe (subScoreOf p (subIntsOf req))
        (subResultOf p (subIntsOf req))
        (mkSnapshot (extractQuiz p) now (extractQuiz p).passMark (subScoreOf p (subIntsOf req))
          (subResultOf p (subIntsOf req)) (subIntsOf req)) ps) := by
  subst htokdef hpkdef hpndef hpddef hpedef hpsdef
  have heidk : normKey (normText (req.participant.bind ReqParticipant.employeeId)) ≠ "" :=
    normKey_normText_ne _ heid
  have he1 : (normKey (normText (req.participant.bind ReqParticipant.employeeId)) != "") = true := by
    simp [heidk]
  have he2 : (normKey (normText (req.participant.bind ReqParticipant.employeeId)) == "") = false := by
    simp [heidk]
  have hb : ∀ pp, rosterHit (normKey (normText (req.participant.bind ReqParticipant.employeeId)))
      (normKey (normText (req.participant.bind ReqParticipant.name))) pp =
      (normKey pp.employeeId != "" && normKey pp.employeeId ==
        normKey (normText (req.participant.bind ReqParticipant.employeeId))) := by
    intro pp
    unfold rosterHit
    dsimp only
    rw [he1, he2]
    simp
  refine ⟨?_, hb, ?_, ?_, ?_, ?_⟩
  · intro nw td r2 row h
    unfold submit
    dsimp only
    by_cases h1 : normText (some r2.token) = ""
    · rw [if_pos h1]; rfl
    · rw [if_neg h1]
      by_cases h2 : r2.answers.getD [] = []
      · rw [if_pos h2]; rfl
      · rw [if_neg h2]
        by_cases h3 : makeParticipantKeyFromBody r2 = ""
        · rw [if_pos h3]; rfl
        · rw [if_neg h3]
          by_cases h4 : normText (r2.participant.bind ReqParticipant.name) = ""
          · rw [if_pos h4]; rfl
          · rw [if_neg h4]
            rw [if_pos h]
            rfl
  · have hbf : rosterHit (normKey (normText (req.participant.bind ReqParticipant.employeeId)))
        (normKey (normText (req.participant.bind ReqParticipant.name))) =
        fun pp => (normKey pp.employeeId != "" && normKey pp.employeeId ==
          normKey (normText (req.participant.bind ReqParticipant.employeeId))) := funext hb
    unfold subNewRoster
    dsimp only
    simp only [hbf]
    by_cases hf : (p.participants.getD []).any
        (fun pp => normKey pp.employeeId != "" && normKey pp.employeeId ==
          normKey (normText (req.participant.bind ReqParticipant.employeeId))) = true
    · rw [if_pos hf, if_pos hf]
      simp
    · rw [if_neg hf, if_neg hf]
      rw [List.length_map]
  · intro pp hpp hcase
    rcases hcase with h | h
    · simp [h]
    · have h2 : (normKey pp.employeeId ==
          normKey (normText (req.participant.bind ReqParticipant.employeeId))) = false := by
        simp [h]
      simp [h2]
  · rw [submit_to_write now today req reportId p htok hans hkey hname heid hquiz hnew
      hlen hints]
    rfl
  · exact subNewPayload_participants now today _ _ _ _ _ _ p

/-- Claim C10 (witness): a submit with an empty employeeId is a 400, and
    the accepted concrete submit stores the updated payload. -/
theorem claimC10_witness :
    (submit "x" "y" ⟨ "tok", some "k1", some ⟨some "Ali", some "QA", some ""⟩, some [.int 0]⟩
        (some (1, fxPayloadR))).1.status = 400 ∧
    (submit "T1" "D1" fxReq (some (1, fxPayloadR))).2 =
      some (1, subNewPayload "T1" "D1" "tok" "eid:E1" "Ali" "QA" "E1" (subIntsOf fxReq)
        fxPayloadR) := by
  have h := claimC10_roster_eid_only "T1" "D1" fxReq 1 fxPayloadR
    "tok" "eid:E1" "Ali" "QA" "E1" fxParticipants
    (by decide) (by decide) (by decide) (by decide) (by decide) (by decide)
    (by decide) (by decide) (by decide) (by decide) (by decide)
    (by decide) (by decide) (by decide) (by decide)
  exact ⟨h.1 "x" "y" ⟨ "tok", some "k1", some ⟨some "Ali", some "QA", some ""⟩, some [.int 0]⟩
    (some (1, fxPayloadR)) (by decide), h.2.2.2.2.1⟩

end InspectionServer
